import Mathlib

/-!
Shallow embedding of the Anthill simulator core (ai_brain.py, ant.py,
world.py, config.py) in Lean 4.

Python floats are modelled as exact rationals.  Sources of nondeterminism
in the code (the external LLM decision, random jitter, random exploration
targets, random memory choice, the wall clock) are threaded through as
oracle parameters, so theorems quantify over every possible draw.
-/

namespace Anthill

/-! ## Configuration constants (config.py) -/

def ANT_MEMORY_SIZE : Nat := 50
def ANT_VISION_RANGE : Int := 8
def ANT_CARRYING_CAPACITY : ℚ := 3
def AI_UPDATE_FREQUENCY : Int := 30
def PHEROMONE_DECAY_RATE : ℚ := 995 / 1000
def MAX_PHEROMONE_STRENGTH : ℚ := 100
def STARTING_CHAMBER_SIZE : Int := 10
def DIGGING_ENERGY_COST : ℚ := 5
def RELATIONSHIP_STRENGTH_MAX : ℚ := 100

/-! ## Basic types -/

/-- Terrain cell kinds: 0=air, 1=soil, 2=tunnel in world.py. -/
inductive Terrain where
  | air
  | soil
  | tunnel
deriving DecidableEq, Repr

/-- The eight task labels of the agent state machine (the action strings of
ant.py and ai_brain.py). -/
inductive Task where
  | explore
  | move_to_food
  | collect_food
  | return_home
  | dig_tunnel
  | follow_ant
  | rest
  | help_ant
deriving DecidableEq, Repr

/-! ## Decision policy: the deterministic fallback (AIBrain._fallback_decision) -/

/-- AIBrain._fallback_decision, ai_brain.py lines 158-179.  Inputs are the
fields the code reads from ant_state and world_context. -/
def fallback_decision (energy food_carried : ℚ) (near_food near_home : Bool) : Task :=
  if energy < 30 then
    (if near_home then Task.rest else Task.return_home)
  else if food_carried > 0 then
    Task.return_home
  else if near_food then
    Task.collect_food
  else
    Task.explore

/-- Restatement of the spec's rule list for the fallback policy, in the
spec's own order, used to compare the source definition against the spec
(section 4.2 of the specification). -/
def fallback_decision_spec (energy food_carried : ℚ) (near_food near_home : Bool) : Task :=
  if energy < 30 then
    (if near_home then Task.rest else Task.return_home)
  else if food_carried > 0 then
    Task.return_home
  else if near_food then
    Task.collect_food
  else
    Task.explore

/-! ## Memory and relationship store (ant.py) -/

/-- The Memory dataclass of ant.py. -/
structure Memory where
  content : String
  memory_type : String
  importance : ℚ
  timestamp : ℚ
  location : Option (Int × Int)
deriving DecidableEq, Repr

/-- The plain memory record built by AIBrain.process_memory and by the
literal dicts passed to Ant.add_memory (fields type, content, timestamp,
importance). -/
structure MemoryData where
  mtype : String
  content : String
  timestamp : ℚ
  importance : ℚ
deriving DecidableEq, Repr

/-- The Relationship dataclass of ant.py. -/
structure Relationship where
  ant_id : Nat
  strength : ℚ
  interactions : Nat
  last_interaction : ℚ
deriving DecidableEq, Repr

/-- True when the needle occurs as a substring of the haystack (the Python
expression needle in text). -/
def contains_sub (needle hay : String) : Bool :=
  (hay.splitOn needle).length > 1

/-- AIBrain._calculate_importance, ai_brain.py lines 190-208. -/
def calculate_importance (memory_text memory_type : String) : ℚ :=
  let base : ℚ :=
    if memory_type = "food_location" then 8/10
    else if memory_type = "danger" then 9/10
    else if memory_type = "social_interaction" then 6/10
    else if memory_type = "task_success" then 7/10
    else if memory_type = "path_learned" then 5/10
    else 5/10
  let base := if contains_sub "food" memory_text.toLower then base + 1/10 else base
  let base :=
    if contains_sub "danger" memory_text.toLower ∨ contains_sub "threat" memory_text.toLower
    then base + 2/10 else base
  min 1 base

/-- AIBrain.process_memory, ai_brain.py lines 181-188; the wall clock value
time.time() is passed in as the now parameter. -/
def process_memory (memory_text memory_type : String) (now : ℚ) : MemoryData :=
  { mtype := memory_type
    content := memory_text
    timestamp := now
    importance := calculate_importance memory_text memory_type }

/-! ## The Ant record (Ant.__init__, ant.py lines 39-74)

The target_x and target_y fields are always assigned together in the source
(either both None or both set) and are modelled as one optional pair.  The
relationships dict is modelled as a lookup function from ant id. -/

structure Ant where
  id : Nat
  x : Int
  y : Int
  prev_x : Int
  prev_y : Int
  energy : ℚ
  max_energy : ℚ
  age : Nat
  carrying_food : ℚ
  alive : Bool
  current_task : Task
  target : Option (Int × Int)
  ai_decision_cooldown : Int
  memories : List Memory
  relationships : Nat → Option Relationship
  pheromone_strength : ℚ
  experience_points : Nat
  task_success_rate : ℚ
  preferred_tasks : List Task
  path_history : List (Int × Int)
  stuck_counter : Nat

/-- Ant.__init__: the initial field values for a new ant at (x, y). -/
def Ant.init (x y : Int) (ant_id : Nat) : Ant :=
  { id := ant_id
    x := x, y := y, prev_x := x, prev_y := y
    energy := 100, max_energy := 100
    age := 0, carrying_food := 0, alive := true
    current_task := Task.explore
    target := none
    ai_decision_cooldown := 0
    memories := []
    relationships := fun _ => none
    pheromone_strength := 0
    experience_points := 0
    task_success_rate := 1/2
    preferred_tasks := []
    path_history := []
    stuck_counter := 0 }

/-- Ant.add_memory, ant.py lines 429-445: append the memory (location is the
ant's current cell); past capacity, sort ascending by importance (stable)
and keep the most important ANT_MEMORY_SIZE entries. -/
def Ant.add_memory (a : Ant) (md : MemoryData) : Ant :=
  let m : Memory :=
    { content := md.content
      memory_type := md.mtype
      importance := md.importance
      timestamp := md.timestamp
      location := some (a.x, a.y) }
  let ms := a.memories ++ [m]
  let ms :=
    if ms.length > ANT_MEMORY_SIZE then
      (ms.mergeSort (fun m1 m2 => m1.importance ≤ m2.importance)).drop
        ((ms.length) - ANT_MEMORY_SIZE)
    else ms
  { a with memories := ms }

/-- Ant._strengthen_relationship, ant.py lines 419-427; time.time() is the
now parameter. -/
def Ant.strengthen_relationship (a : Ant) (other_id : Nat) (now : ℚ) : Ant :=
  let rel := match a.relationships other_id with
    | some r => r
    | none => { ant_id := other_id, strength := 0, interactions := 0, last_interaction := 0 }
  let rel :=
    { rel with
      strength := min RELATIONSHIP_STRENGTH_MAX (rel.strength + 5)
      interactions := rel.interactions + 1
      last_interaction := now }
  { a with relationships := fun k => if k = other_id then some rel else a.relationships k }

/-- Ant._age_memories, ant.py lines 447-452. -/
def Ant.age_memories (a : Ant) (now : ℚ) : Ant :=
  { a with
    memories := a.memories.map fun m =>
      { m with importance := m.importance * max (1/10) (1 - (now - m.timestamp) / 3600) } }

/-- Ant._update_movement_history, ant.py lines 454-458: append the current
cell and keep the last 20 positions. -/
def Ant.update_movement_history (a : Ant) : Ant :=
  let ph := a.path_history ++ [(a.x, a.y)]
  { a with path_history := if ph.length > 20 then ph.drop 1 else ph }

/-- Ant._reached_target, ant.py lines 398-402. -/
def Ant.reached_target (a : Ant) : Bool :=
  match a.target with
  | none => true
  | some (tx, ty) => (a.x - tx).natAbs ≤ 1 ∧ (a.y - ty).natAbs ≤ 1

/-! ## The World record (World.__init__, world.py lines 18-41)

The dense numpy arrays are modelled as total functions on coordinates; the
source only ever reads or writes them behind an is_valid_position guard.
Randomly generated initial terrain, food and ants are left abstract: the
theorems quantify over every world value. -/

structure World where
  width : Nat
  height : Nat
  terrain : Int → Int → Terrain
  food : Int → Int → ℚ
  pheromone_food : Int → Int → ℚ
  pheromone_home : Int → Int → ℚ
  ants : List Ant
  food_storage : ℚ
  generation : Nat
  total_food_collected : ℚ
  total_tunnels_dug : Nat
  frame_count : Nat

/-- World.is_valid_position, world.py lines 204-206. -/
def World.is_valid_position (w : World) (x y : Int) : Bool :=
  0 ≤ x ∧ x < (w.width : Int) ∧ 0 ≤ y ∧ y < (w.height : Int)

/-- World.can_move_to, world.py lines 208-214: in bounds and terrain is not
solid soil. -/
def World.can_move_to (w : World) (x y : Int) : Bool :=
  if ¬ w.is_valid_position x y then false
  else w.terrain x y ≠ Terrain.soil

/-- World.can_dig_at, world.py lines 216-222: in bounds and terrain is soil. -/
def World.can_dig_at (w : World) (x y : Int) : Bool :=
  if ¬ w.is_valid_position x y then false
  else w.terrain x y = Terrain.soil

/-- World.dig_tunnel_at, world.py lines 224-228: convert soil to tunnel and
count the dug tunnel; silently a no-op otherwise. -/
def World.dig_tunnel_at (w : World) (x y : Int) : World :=
  if w.can_dig_at x y then
    { w with
      terrain := fun x2 y2 => if x2 = x ∧ y2 = y then Terrain.tunnel else w.terrain x2 y2
      total_tunnels_dug := w.total_tunnels_dug + 1 }
  else w

/-- World.is_tunnel, world.py lines 230-234. -/
def World.is_tunnel (w : World) (x y : Int) : Bool :=
  if ¬ w.is_valid_position x y then false
  else w.terrain x y = Terrain.tunnel

/-- World.get_food_at, world.py lines 236-240. -/
def World.get_food_at (w : World) (x y : Int) : ℚ :=
  if ¬ w.is_valid_position x y then 0
  else w.food x y

/-- World.remove_food_at, world.py lines 242-248: remove and return
min(amount, available); outside bounds return 0 and change nothing. -/
def World.remove_food_at (w : World) (x y : Int) (amount : ℚ) : ℚ × World :=
  if w.is_valid_position x y then
    let removed := min amount (w.food x y)
    (removed,
      { w with food := fun x2 y2 => if x2 = x ∧ y2 = y then w.food x2 y2 - removed else w.food x2 y2 })
  else (0, w)

/-- World.add_food_storage, world.py lines 250-253. -/
def World.add_food_storage (w : World) (amount : ℚ) : World :=
  { w with
    food_storage := w.food_storage + amount
    total_food_collected := w.total_food_collected + amount }

/-- World.get_pheromone_strength, world.py lines 255-264; the pheromone
type is the string key used by the source. -/
def World.get_pheromone_strength (w : World) (x y : Int) (pheromone_type : String) : ℚ :=
  if ¬ w.is_valid_position x y then 0
  else if pheromone_type = "food" then w.pheromone_food x y
  else if pheromone_type = "home" then w.pheromone_home x y
  else 0

/-! ## Perception: nearest-food, nearest-tunnel and nearest-ant searches -/

/-- The list of integers lo, lo+1, ..., hi-1 (a Python range). -/
def intRange (lo hi : Int) : List Int :=
  (List.range (hi - lo).toNat).map fun k => lo + k

/-- Squared Euclidean distance between two cells.  The source compares
square roots of these values with strict less-than and with constants;
since the square root is strictly monotone on nonnegatives, comparing the
squares is equivalent and keeps the first-wins tie-break. -/
def dist2 (x1 y1 x2 y2 : Int) : Int :=
  (x1 - x2) ^ 2 + (y1 - y2) ^ 2

/-- Ant._find_nearest_food, ant.py lines 350-365: scan the vision window in
x-major order keeping the first cell at strictly smaller distance. -/
def Ant.find_nearest_food (a : Ant) (w : World) : Option (Int × Int) :=
  let xs := intRange (max 0 (a.x - ANT_VISION_RANGE)) (min (w.width : Int) (a.x + ANT_VISION_RANGE + 1))
  let ys := intRange (max 0 (a.y - ANT_VISION_RANGE)) (min (w.height : Int) (a.y + ANT_VISION_RANGE + 1))
  let cells := xs.flatMap fun x => ys.map fun y => (x, y)
  (cells.foldl (fun best c =>
    if w.get_food_at c.1 c.2 > 0 then
      let d2 := dist2 c.1 c.2 a.x a.y
      match best with
      | none => some (c, d2)
      | some (bc, bd) => if d2 < bd then some (c, d2) else some (bc, bd)
    else best) none).map Prod.fst

/-- Ant._find_nearest_tunnel, ant.py lines 367-382. -/
def Ant.find_nearest_tunnel (a : Ant) (w : World) : Option (Int × Int) :=
  let xs := intRange (max 0 (a.x - ANT_VISION_RANGE)) (min (w.width : Int) (a.x + ANT_VISION_RANGE + 1))
  let ys := intRange (max 0 (a.y - ANT_VISION_RANGE)) (min (w.height : Int) (a.y + ANT_VISION_RANGE + 1))
  let cells := xs.flatMap fun x => ys.map fun y => (x, y)
  (cells.foldl (fun best c =>
    if w.is_tunnel c.1 c.2 then
      let d2 := dist2 c.1 c.2 a.x a.y
      match best with
      | none => some (c, d2)
      | some (bc, bd) => if d2 < bd then some (c, d2) else some (bc, bd)
    else best) none).map Prod.fst

/-- One step of the nearest-other-ant scan of Ant._find_nearest_ant: skip
self and dead ants, keep the strictly closest candidate within vision. -/
def nearest_ant_step (i : Nat) (sx sy : Int) (best : Option (Nat × Int)) (p : Nat × Ant) :
    Option (Nat × Int) :=
  if p.1 ≠ i ∧ p.2.alive then
    let d2 := dist2 p.2.x p.2.y sx sy
    let closer : Bool := match best with
      | none => true
      | some q => decide (d2 < q.2)
    if closer ∧ d2 ≤ ANT_VISION_RANGE ^ 2 then some (p.1, d2) else best
  else best

/-- Ant._find_nearest_ant, ant.py lines 384-396, returning the index of the
nearest other living ant within vision range.  Python object identity is
positional identity in the ants list. -/
def World.find_nearest_ant (w : World) (i : Nat) : Option Nat :=
  match w.ants[i]? with
  | none => none
  | some self =>
    (w.ants.enum.foldl (nearest_ant_step i self.x self.y) none).map Prod.fst

/-! ## Movement (Ant._move_towards_target, ant.py lines 322-348) -/

/-- Ant._move_towards_target: one step of the sign of the delta per axis; a
move is accepted only when the destination passes can_move_to, otherwise the
stuck counter increments. -/
def Ant.move_towards_target (a : Ant) (w : World) : Ant :=
  match a.target with
  | none => a
  | some (tx, ty) =>
    let dx0 := tx - a.x
    let dy0 := ty - a.y
    let dx : Int := if dx0 ≠ 0 then (if dx0 > 0 then 1 else -1) else dx0
    let dy : Int := if dy0 ≠ 0 then (if dy0 > 0 then 1 else -1) else dy0
    let nx := a.x + dx
    let ny := a.y + dy
    if w.can_move_to nx ny then
      { a with prev_x := a.x, prev_y := a.y, x := nx, y := ny, stuck_counter := 0 }
    else
      { a with stuck_counter := a.stuck_counter + 1 }

/-! ## Per-ant oracle

One bundle of the nondeterministic draws consumed by a single ant update:
the decision returned by AIBrain.make_decision (LLM, cache or fallback, all
returning one of the eight task labels), the random cooldown jitter drawn
from -5..5, the random exploration target offset computed from a random
angle and distance, the index drawn by random.choice when sharing a memory
and the wall clock time.time(). -/

structure AntRand where
  decision : Task
  jitter : Int
  explore_offset : Int × Int
  memory_choice : Nat
  now : ℚ

/-- Ant._update_ai_decision, ant.py lines 104-123: decrement the cooldown;
at zero or below consult the decision policy, switch the task (clearing the
target) only when it differs, and reset the cooldown with jitter. -/
def Ant.update_ai_decision (a : Ant) (r : AntRand) : Ant :=
  let cd := a.ai_decision_cooldown - 1
  if cd ≤ 0 then
    let new_action := r.decision
    let a := if new_action ≠ a.current_task then
               { a with current_task := new_action, target := none }
             else a
    { a with ai_decision_cooldown := AI_UPDATE_FREQUENCY + r.jitter }
  else { a with ai_decision_cooldown := cd }

/-! ## Memory message strings built by the actions -/

def collected_food_msg (amount : ℚ) (x y : Int) : String :=
  "Collected " ++ toString amount ++ " food at " ++ toString x ++ "," ++ toString y

def delivered_food_msg (x y : Int) : String :=
  "Delivered food to colony at " ++ toString x ++ "," ++ toString y

def dug_tunnel_msg (x y : Int) : String :=
  "Dug tunnel at " ++ toString x ++ "," ++ toString y

def learned_msg (ant_id : Nat) (content : String) : String :=
  "Learned from ant " ++ toString ant_id ++ ": " ++ content

def inherited_msg (content : String) : String :=
  "Inherited: " ++ content

/-! ## The eight task behaviors (ant.py lines 191-320)

Each behavior updates the ant at index i of the world's ant list and
possibly the grid, the storage or one other ant. -/

/-- World.set_ant replaces the ant at index i (out-of-range indices leave
the list unchanged, and all guarded calls are in range). -/
def World.set_ant (w : World) (i : Nat) (a : Ant) : World :=
  { w with ants := w.ants.set i a }

/-- Ant._action_explore, ant.py lines 191-206.  The random target is the
oracle's offset from the current cell (the source draws a random angle and
a distance between 10 and 30). -/
def World.action_explore (w : World) (i : Nat) (r : AntRand) : World :=
  match w.ants[i]? with
  | none => w
  | some a =>
    let a := match a.target with
      | none => { a with target := some (a.x + r.explore_offset.1, a.y + r.explore_offset.2) }
      | some _ => a
    let a := a.move_towards_target w
    let a := if a.reached_target ∨ a.stuck_counter > 10 then
               { a with target := none, stuck_counter := 0 }
             else a
    w.set_ant i a

/-- Ant._action_move_to_food, ant.py lines 208-215. -/
def World.action_move_to_food (w : World) (i : Nat) : World :=
  match w.ants[i]? with
  | none => w
  | some a =>
    match a.find_nearest_food w with
    | some loc =>
      let a := { a with target := some loc }
      w.set_ant i (a.move_towards_target w)
    | none => w.set_ant i { a with current_task := Task.explore }

/-- Ant._action_collect_food, ant.py lines 217-235: transfer
min(available, remaining capacity) from the cell into carried food, record
a memory and switch to ReturnHome; otherwise revert to Explore. -/
def World.action_collect_food (w : World) (i : Nat) (r : AntRand) : World :=
  match w.ants[i]? with
  | none => w
  | some a =>
    let food_amount := w.get_food_at a.x a.y
    if food_amount > 0 ∧ a.carrying_food < ANT_CARRYING_CAPACITY then
      let collected := min food_amount (ANT_CARRYING_CAPACITY - a.carrying_food)
      let w2 := (w.remove_food_at a.x a.y collected).2
      let a := { a with carrying_food := a.carrying_food + collected }
      let a := a.add_memory (process_memory (collected_food_msg collected a.x a.y) "task_success" r.now)
      let a := { a with current_task := Task.return_home }
      w2.set_ant i a
    else
      w.set_ant i { a with current_task := Task.explore }

/-- Ant._action_return_home, ant.py lines 237-258. -/
def World.action_return_home (w : World) (i : Nat) (r : AntRand) : World :=
  match w.ants[i]? with
  | none => w
  | some a =>
    match a.find_nearest_tunnel w with
    | some loc =>
      let a := { a with target := some loc }
      let a := a.move_towards_target w
      if w.is_tunnel a.x a.y ∧ a.carrying_food > 0 then
        let w2 := w.add_food_storage a.carrying_food
        let a := { a with carrying_food := 0, current_task := Task.explore }
        let a := a.add_memory (process_memory (delivered_food_msg a.x a.y) "task_success" r.now)
        w2.set_ant i a
      else w.set_ant i a
    | none => w.set_ant i { a with current_task := Task.dig_tunnel }

/-- Ant._action_dig_tunnel, ant.py lines 260-276. -/
def World.action_dig_tunnel (w : World) (i : Nat) (r : AntRand) : World :=
  match w.ants[i]? with
  | none => w
  | some a =>
    if a.energy ≥ DIGGING_ENERGY_COST then
      if w.can_dig_at a.x a.y then
        let w2 := w.dig_tunnel_at a.x a.y
        let a := { a with energy := a.energy - DIGGING_ENERGY_COST }
        let a := a.add_memory (process_memory (dug_tunnel_msg a.x a.y) "task_success" r.now)
        let a := { a with current_task := Task.explore }
        w2.set_ant i a
      else w
    else
      w.set_ant i { a with current_task := Task.rest }

/-- Ant._action_follow_ant, ant.py lines 278-291, together with
Ant._interact_with_ant, lines 404-417.  random.choice over the follower's
memories is the oracle's index modulo the list length. -/
def World.action_follow_ant (w : World) (i : Nat) (r : AntRand) : World :=
  match w.ants[i]? with
  | none => w
  | some a =>
    match w.find_nearest_ant i with
    | none => w.set_ant i { a with current_task := Task.explore }
    | some j =>
      match w.ants[j]? with
      | none => w
      | some b =>
        let a := { a with target := some (b.x, b.y) }
        let a := a.move_towards_target w
        if dist2 a.x a.y b.x b.y ≤ 4 then
          let a := a.strengthen_relationship b.id r.now
          let b := b.strengthen_relationship a.id r.now
          if a.memories.length > 0 ∧ b.memories.length < ANT_MEMORY_SIZE then
            match a.memories[r.memory_choice % a.memories.length]? with
            | some shared =>
              let b := b.add_memory
                { mtype := "social_interaction"
                  content := learned_msg a.id shared.content
                  timestamp := r.now
                  importance := shared.importance * (1/2) }
              (w.set_ant i a).set_ant j b
            | none => (w.set_ant i a).set_ant j b
          else (w.set_ant i a).set_ant j b
        else w.set_ant i a

/-- Ant._action_rest, ant.py lines 293-297: recover 2 energy clamped to
max_energy; at 80 percent of max switch back to Explore. -/
def World.action_rest (w : World) (i : Nat) : World :=
  match w.ants[i]? with
  | none => w
  | some a =>
    let a := { a with energy := min a.max_energy (a.energy + 2) }
    let a := if a.energy ≥ a.max_energy * (8/10) then { a with current_task := Task.explore } else a
    w.set_ant i a

/-- Ant._action_help_ant, ant.py lines 299-320: approach the nearest ant
busy collecting or digging; adjacent to a digging ant and with enough
energy, pay the digging cost and hand the target 5 energy. -/
def World.action_help_ant (w : World) (i : Nat) (r : AntRand) : World :=
  match w.ants[i]? with
  | none => w
  | some a =>
    match w.find_nearest_ant i with
    | none => w.set_ant i { a with current_task := Task.explore }
    | some j =>
      match w.ants[j]? with
      | none => w
      | some b =>
        if b.current_task = Task.collect_food ∨ b.current_task = Task.dig_tunnel then
          let a := { a with target := some (b.x, b.y) }
          let a := a.move_towards_target w
          if dist2 a.x a.y b.x b.y ≤ 1 then
            if b.current_task = Task.dig_tunnel then
              if a.energy ≥ DIGGING_ENERGY_COST then
                let a := { a with energy := a.energy - DIGGING_ENERGY_COST }
                let b := { b with energy := b.energy + 5 }
                let a := a.strengthen_relationship b.id r.now
                (w.set_ant i a).set_ant j b
              else w.set_ant i a
            else w.set_ant i a
          else w.set_ant i a
        else w.set_ant i { a with current_task := Task.explore }

/-- Ant._execute_action, ant.py lines 175-189: dispatch on the current
task label (the source's lookup table covers all eight labels, with
explore as the default). -/
def World.execute_action (w : World) (i : Nat) (r : AntRand) : World :=
  match w.ants[i]? with
  | none => w
  | some a =>
    match a.current_task with
    | Task.explore => w.action_explore i r
    | Task.move_to_food => w.action_move_to_food i
    | Task.collect_food => w.action_collect_food i r
    | Task.return_home => w.action_return_home i r
    | Task.dig_tunnel => w.action_dig_tunnel i r
    | Task.follow_ant => w.action_follow_ant i r
    | Task.rest => w.action_rest i
    | Task.help_ant => w.action_help_ant i r

/-! ## The per-ant tick (Ant.update, ant.py lines 76-102) -/

/-- The start of Ant.update: age increments and energy decays by 0.1. -/
def Ant.decayed (a : Ant) : Ant :=
  { a with age := a.age + 1, energy := a.energy - 1/10 }

/-- The tail of Ant.update: movement history, on-ant pheromone decay and
memory aging. -/
def Ant.post_update (a : Ant) (now : ℚ) : Ant :=
  let a := a.update_movement_history
  let a := { a with pheromone_strength := a.pheromone_strength * PHEROMONE_DECAY_RATE }
  a.age_memories now

/-- The task whose behavior a live ant executes this tick: its current task
after the decay step and the decision phase. -/
def Ant.tick_task (a : Ant) (r : AntRand) : Task :=
  (a.decayed.update_ai_decision r).current_task

/-- Ant.update, ant.py lines 76-102, for the ant at index i: a dead ant is
untouched; otherwise age and decay energy, die at energy ≤ 0, else run the
decision phase, execute the current task's behavior and run the
end-of-update bookkeeping. -/
def World.ant_update_at (w : World) (i : Nat) (r : AntRand) : World :=
  match w.ants[i]? with
  | none => w
  | some a =>
    if ¬ a.alive then w
    else
      let a := a.decayed
      if a.energy ≤ 0 then
        w.set_ant i { a with alive := false }
      else
        let a := a.update_ai_decision r
        let w1 := w.set_ant i a
        let w2 := w1.execute_action i r
        match w2.ants[i]? with
        | none => w2
        | some a2 => w2.set_ant i (a2.post_update r.now)

/-! ## The world tick (World.update, world.py lines 100-119) -/

/-- The nondeterministic draws consumed by one world tick: one AntRand per
ant-update call, the food-spawn draw (none when the probability gate
fails; otherwise a surface cell and amount), the random.choice index over
tunnel cells for a newborn ant and the index draws of random.sample for its
inherited memories. -/
structure WorldRand where
  ant_rand : Nat → AntRand
  food_spawn : Option (Int × Int × ℚ)
  tunnel_choice : Nat
  memory_sample : List Nat

/-- The ant loop of World.update, world.py lines 105-110: iterate over a
snapshot of the ant list, updating each ant in place and removing it right
away when it is found dead.  p is the index of the next unprocessed ant in
the current list and rem the number of snapshot entries still to process. -/
def World.tick_loop (r : WorldRand) : Nat → Nat → World → World
  | 0, _, w => w
  | rem + 1, p, w =>
    let w1 := w.ant_update_at p (r.ant_rand rem)
    match w1.ants[p]? with
    | some a =>
      if a.alive then World.tick_loop r rem (p + 1) w1
      else World.tick_loop r rem p { w1 with ants := w1.ants.eraseIdx p }
    | none => w1

/-- World._spawn_food, world.py lines 121-133: with the spawn probability,
add a random amount at a random surface cell when it is air holding less
than 10 food. -/
def World.spawn_food_step (w : World) (r : WorldRand) : World :=
  match r.food_spawn with
  | none => w
  | some (x, y, amount) =>
    if w.is_valid_position x y ∧ w.terrain x y = Terrain.air ∧ w.food x y < 10 then
      { w with food := fun x2 y2 => if x2 = x ∧ y2 = y then w.food x2 y2 + amount else w.food x2 y2 }
    else w

/-- The decay half of World._update_pheromones, world.py lines 138-139:
both fields are multiplied pointwise by the decay rate. -/
def World.decay_pheromones (w : World) : World :=
  { w with
    pheromone_food := fun x y => w.pheromone_food x y * PHEROMONE_DECAY_RATE
    pheromone_home := fun x y => w.pheromone_home x y * PHEROMONE_DECAY_RATE }

/-- The per-ant deposit half of World._update_pheromones, world.py lines
142-157: a live ant carrying food deposits 10 home pheromone at its cell,
an ant searching for food deposits 5 food pheromone, both clamped to the
ceiling. -/
def World.drop_ant_pheromone (w : World) (a : Ant) : World :=
  if a.alive ∧ w.is_valid_position a.x a.y then
    if a.carrying_food > 0 then
      { w with pheromone_home := fun x y =>
          if x = a.x ∧ y = a.y then min MAX_PHEROMONE_STRENGTH (w.pheromone_home x y + 10)
          else w.pheromone_home x y }
    else if a.current_task = Task.move_to_food then
      { w with pheromone_food := fun x y =>
          if x = a.x ∧ y = a.y then min MAX_PHEROMONE_STRENGTH (w.pheromone_food x y + 5)
          else w.pheromone_food x y }
    else w
  else w

/-- World._update_pheromones, world.py lines 135-157. -/
def World.update_pheromones (w : World) : World :=
  let w1 := w.decay_pheromones
  w1.ants.foldl World.drop_ant_pheromone w1

/-- The tunnel-cell enumeration of World._spawn_new_ant, world.py lines
171-175, in x-major scan order. -/
def World.tunnel_locations (w : World) : List (Int × Int) :=
  (List.range w.width).flatMap fun (x : Nat) =>
    (List.range w.height).filterMap fun (y : Nat) =>
      if w.terrain (Int.ofNat x) (Int.ofNat y) = Terrain.tunnel then
        some (Int.ofNat x, Int.ofNat y)
      else none

/-- Python max(ants, key experience_points): the first ant with maximal
experience, none for an empty list. -/
def most_experienced : List Ant → Option Ant
  | [] => none
  | h :: t => some (t.foldl (fun best b =>
      if b.experience_points > best.experience_points then b else best) h)

/-- World._spawn_new_ant, world.py lines 168-201: create an ant at a random
tunnel cell, copying the preferred tasks and up to three sampled memories
(importance discounted to 0.3) from the most experienced ant. -/
def World.spawn_new_ant (w : World) (r : WorldRand) : World :=
  match w.tunnel_locations[r.tunnel_choice % w.tunnel_locations.length]? with
  | none => w
  | some loc =>
    let new_ant := Ant.init loc.1 loc.2 w.ants.length
    let new_ant :=
      match most_experienced w.ants with
      | none => new_ant
      | some succ =>
        let new_ant := { new_ant with preferred_tasks := succ.preferred_tasks }
        if succ.memories.length > 0 then
          (r.memory_sample.take (min 3 succ.memories.length)).foldl (fun na k =>
            match succ.memories[k % succ.memories.length]? with
            | some m => na.add_memory
                { mtype := "inherited_knowledge"
                  content := inherited_msg m.content
                  timestamp := m.timestamp
                  importance := m.importance * (3/10) }
            | none => na) new_ant
        else new_ant
    { w with ants := w.ants ++ [new_ant] }

/-- World._check_colony_growth, world.py lines 159-166. -/
def World.check_colony_growth (w : World) (r : WorldRand) : World :=
  if w.food_storage > 50 ∧ w.ants.length < 30 ∧ w.frame_count % 1800 = 0 then
    w.spawn_new_ant r
  else w

/-- World.update, world.py lines 100-119: advance one frame. -/
def World.update (w : World) (r : WorldRand) : World :=
  let w := { w with frame_count := w.frame_count + 1 }
  let w := World.tick_loop r w.ants.length 0 w
  let w := w.spawn_food_step r
  let w := w.update_pheromones
  w.check_colony_growth r

/-! ## Concrete fixtures used to evaluate the development on closed inputs -/

/-- A fixed oracle bundle for concrete runs. -/
def rand0 : AntRand :=
  { decision := Task.explore, jitter := 0, explore_offset := (0, 0), memory_choice := 0, now := 0 }

/-- A small 8 by 8 world builder with empty pheromone fields. -/
def test_world (terrain : Int → Int → Terrain) (food : Int → Int → ℚ) (ants : List Ant) : World :=
  { width := 8, height := 8
    terrain := terrain, food := food
    pheromone_food := fun _ _ => 0, pheromone_home := fun _ _ => 0
    ants := ants
    food_storage := 0, generation := 1
    total_food_collected := 0, total_tunnels_dug := 0, frame_count := 0 }

/-- An all-soil world with no ants. -/
def world_soil : World := test_world (fun _ _ => Terrain.soil) (fun _ _ => 0) []

/-- A world with 4 food at cell (0, 0) and one fresh ant standing there. -/
def world_food4 : World :=
  test_world (fun _ _ => Terrain.air) (fun x y => if x = 0 ∧ y = 0 then 4 else 0)
    [Ant.init 0 0 0]

/-- An all-tunnel world whose home pheromone field is 95 everywhere, with a
live food-carrying ant at (1, 1). -/
def world_ph95 : World :=
  { test_world (fun _ _ => Terrain.tunnel) (fun _ _ => 0)
      [{ Ant.init 1 1 0 with carrying_food := 2 }] with
    pheromone_home := fun _ _ => 95 }

/-- An all-tunnel world with one fresh ant at (1, 1). -/
def world_one_ant : World :=
  test_world (fun _ _ => Terrain.tunnel) (fun _ _ => 0) [Ant.init 1 1 0]

/-- An all-tunnel world staging the helper scenario: ant 0 is executing
HelpAnt next to ant 1, which is digging with energy 98 out of 100. -/
def world_help : World :=
  test_world (fun _ _ => Terrain.tunnel) (fun _ _ => 0)
    [{ Ant.init 1 1 0 with current_task := Task.help_ant, ai_decision_cooldown := 5, energy := 50 },
     { Ant.init 1 2 1 with current_task := Task.dig_tunnel, ai_decision_cooldown := 5, energy := 98 }]

/-- An all-tunnel world with one ant at (1, 1) whose energy is exactly the
decay constant, so the decay step of the next update kills it. -/
def world_dying : World :=
  test_world (fun _ _ => Terrain.tunnel) (fun _ _ => 0)
    [{ Ant.init 1 1 0 with energy := 1/10 }]

/-- The frame conditions a task behavior at index i satisfies: the ant list
keeps its length, the grid bounds are unchanged, every other ant keeps its
alive flag and position, and the acting ant keeps its alive flag, stays in
bounds, and (unless the behavior may restore energy) does not gain energy. -/
def ActionSpec (w w2 : World) (i : Nat) (allow_gain : Bool) : Prop :=
  w2.ants.length = w.ants.length ∧
  (∀ x y, w2.is_valid_position x y = w.is_valid_position x y) ∧
  (∀ k b, k ≠ i → w2.ants[k]? = some b →
    ∃ c, w.ants[k]? = some c ∧ b.alive = c.alive ∧ b.x = c.x ∧ b.y = c.y) ∧
  (∀ b, w2.ants[i]? = some b →
    ∃ c, w.ants[i]? = some c ∧ b.alive = c.alive ∧
      (w.is_valid_position c.x c.y = true → w.is_valid_position b.x b.y = true) ∧
      (allow_gain = false → b.energy ≤ c.energy))

end Anthill

namespace Anthill

/-! ## Claims C1 and C5: the fallback policy -/

/-- C1 counterexample: an agent carrying food 2 at energy 25 near home gets
Rest from the fallback, not ReturnHome, so carried food alone does not force
ReturnHome at every energy level. -/
theorem c1_counterexample :
    fallback_decision 25 2 false true ≠ Task.return_home := by
  decide

/-- C1 (amended): for every agent state with carried food greater than 0
whose energy is not below the low-energy threshold 30, the deterministic
fallback decision returns ReturnHome, at any location. -/
theorem c1_fallback_carrying_returns_home
    (energy food_carried : ℚ) (near_food near_home : Bool)
    (henergy : 30 ≤ energy) (hfood : 0 < food_carried) :
    fallback_decision energy food_carried near_food near_home = Task.return_home := by
  unfold fallback_decision
  rw [if_neg (by exact not_lt.mpr henergy), if_pos hfood]

/-- Witness for C1 (amended) at energy 50, carried food 2. -/
theorem c1_fallback_carrying_returns_home_witness :
    fallback_decision 50 2 true true = Task.return_home :=
  c1_fallback_carrying_returns_home 50 2 true true (by norm_num) (by norm_num)

/-- C5: the deterministic fallback is exactly the pure rule list of the
spec, applied in order (low energy first, then carried food, then visible
food, then Explore), and in particular energy 25 with near home true yields
Rest. -/
theorem c5_fallback_matches_spec_rules
    (energy food_carried : ℚ) (near_food near_home : Bool) :
    fallback_decision energy food_carried near_food near_home =
      fallback_decision_spec energy food_carried near_food near_home ∧
    fallback_decision 25 food_carried near_food true = Task.rest := by
  refine ⟨rfl, ?_⟩
  unfold fallback_decision
  rw [if_pos (by norm_num), if_pos rfl]

/-! ## Helper lemmas about the field grid -/

theorem can_dig_at_iff (w : World) (x y : Int) :
    w.can_dig_at x y = true ↔ w.is_valid_position x y = true ∧ w.terrain x y = Terrain.soil := by
  unfold World.can_dig_at
  by_cases h : w.is_valid_position x y = true <;> simp [h]

theorem can_move_to_valid (w : World) (x y : Int) (h : w.can_move_to x y = true) :
    w.is_valid_position x y = true := by
  unfold World.can_move_to at h
  by_cases hv : w.is_valid_position x y = true
  · exact hv
  · simp [hv] at h

/-! ## Claim C8: digging -/

/-- C8: digging succeeds exactly on in-bounds Soil, turning it to Tunnel
and counting one dug tunnel; at Tunnel or Air cells or out of bounds it is
a no-op on the whole world; hence digging a cell twice equals digging it
once. -/
theorem c8_dig_soil_idempotent (w : World) (x y : Int) :
    (w.is_valid_position x y = true → w.terrain x y = Terrain.soil →
      (w.dig_tunnel_at x y).terrain x y = Terrain.tunnel ∧
      (w.dig_tunnel_at x y).total_tunnels_dug = w.total_tunnels_dug + 1) ∧
    (¬ (w.is_valid_position x y = true ∧ w.terrain x y = Terrain.soil) →
      w.dig_tunnel_at x y = w) ∧
    (w.dig_tunnel_at x y).dig_tunnel_at x y = w.dig_tunnel_at x y := by
  refine ⟨?_, ?_, ?_⟩
  · intro hv hs
    have hc : w.can_dig_at x y = true := (can_dig_at_iff w x y).mpr ⟨hv, hs⟩
    unfold World.dig_tunnel_at
    simp [hc]
  · intro h
    have hc : ¬ w.can_dig_at x y = true := fun hc => h ((can_dig_at_iff w x y).mp hc)
    unfold World.dig_tunnel_at
    simp [hc]
  · have hnop : ∀ v : World, ¬ v.can_dig_at x y = true → v.dig_tunnel_at x y = v := by
      intro v hv
      unfold World.dig_tunnel_at
      simp [hv]
    by_cases hc : w.can_dig_at x y = true
    · have ht : (w.dig_tunnel_at x y).terrain x y = Terrain.tunnel := by
        unfold World.dig_tunnel_at
        simp [hc]
      have hc2 : ¬ (w.dig_tunnel_at x y).can_dig_at x y = true := by
        intro hcon
        have := ((can_dig_at_iff _ x y).mp hcon).2
        rw [ht] at this
        exact Terrain.noConfusion this
      exact hnop _ hc2
    · rw [hnop w hc]
      exact hnop w hc

/-- Witness for C8 on the all-soil world at cell (2, 2). -/
theorem c8_dig_soil_idempotent_witness :
    (world_soil.dig_tunnel_at 2 2).terrain 2 2 = Terrain.tunnel ∧
    (world_soil.dig_tunnel_at 2 2).total_tunnels_dug = world_soil.total_tunnels_dug + 1 ∧
    (world_soil.dig_tunnel_at 2 2).dig_tunnel_at 2 2 = world_soil.dig_tunnel_at 2 2 := by
  have h := c8_dig_soil_idempotent world_soil 2 2
  have h1 := h.1 (by decide) (by decide)
  exact ⟨h1.1, h1.2, h.2.2⟩

/-! ## Claim C9: out-of-bounds spatial queries are neutral -/

/-- C9: outside the grid bounds every spatial query returns its neutral
value without failing and without changing the world: movement and digging
are denied, tunnel tests are false, food reads 0, food removal removes
nothing and returns the world unchanged, and pheromone reads are 0. -/
theorem c9_out_of_bounds_neutral (w : World) (x y : Int) (amount : ℚ)
    (pheromone_type : String) (h : ¬ w.is_valid_position x y = true) :
    w.can_move_to x y = false ∧
    w.can_dig_at x y = false ∧
    w.is_tunnel x y = false ∧
    w.get_food_at x y = 0 ∧
    (w.remove_food_at x y amount).1 = 0 ∧
    (w.remove_food_at x y amount).2 = w ∧
    w.get_pheromone_strength x y pheromone_type = 0 := by
  unfold World.can_move_to World.can_dig_at World.is_tunnel World.get_food_at
    World.remove_food_at World.get_pheromone_strength
  simp [h]

/-- Witness for C9 at the out-of-bounds coordinate (-1, 3). -/
theorem c9_out_of_bounds_neutral_witness :
    world_soil.can_move_to (-1) 3 = false ∧
    world_soil.can_dig_at (-1) 3 = false ∧
    world_soil.is_tunnel (-1) 3 = false ∧
    world_soil.get_food_at (-1) 3 = 0 ∧
    (world_soil.remove_food_at (-1) 3 7).1 = 0 ∧
    (world_soil.remove_food_at (-1) 3 7).2 = world_soil ∧
    world_soil.get_pheromone_strength (-1) 3 "food" = 0 :=
  c9_out_of_bounds_neutral world_soil (-1) 3 7 "food" (by decide)

/-! ## Claim C7: pheromone decay, deposits and bounds -/

theorem drop_ant_pheromone_bounds (w : World) (a : Ant)
    (hw : ∀ x y, 0 ≤ w.pheromone_food x y ∧ w.pheromone_food x y ≤ MAX_PHEROMONE_STRENGTH ∧
          0 ≤ w.pheromone_home x y ∧ w.pheromone_home x y ≤ MAX_PHEROMONE_STRENGTH) :
    ∀ x y, 0 ≤ (w.drop_ant_pheromone a).pheromone_food x y ∧
        (w.drop_ant_pheromone a).pheromone_food x y ≤ MAX_PHEROMONE_STRENGTH ∧
        0 ≤ (w.drop_ant_pheromone a).pheromone_home x y ∧
        (w.drop_ant_pheromone a).pheromone_home x y ≤ MAX_PHEROMONE_STRENGTH := by
  intro x y
  unfold World.drop_ant_pheromone
  split
  · split
    · refine ⟨(hw x y).1, (hw x y).2.1, ?_, ?_⟩ <;> dsimp only <;> split
      · exact le_min (by norm_num [MAX_PHEROMONE_STRENGTH])
          (by linarith [(hw x y).2.2.1])
      · exact (hw x y).2.2.1
      · exact min_le_left _ _
      · exact (hw x y).2.2.2
    · split
      · refine ⟨?_, ?_, (hw x y).2.2.1, (hw x y).2.2.2⟩ <;> dsimp only <;> split
        · exact le_min (by norm_num [MAX_PHEROMONE_STRENGTH])
            (by linarith [(hw x y).1])
        · exact (hw x y).1
        · exact min_le_left _ _
        · exact (hw x y).2.1
      · exact hw x y
  · exact hw x y

/-- C7: after n decay steps every pheromone cell equals its initial value
times the decay rate to the n; a home deposit by a carrying ant adds 10
clamped at the ceiling (so from 95 it produces 100, not 105); and the full
pheromone pass keeps every cell of both fields within 0 and the ceiling. -/
theorem c7_pheromone_decay_and_clamp :
    (∀ (w : World) (n : Nat) (x y : Int),
      ((World.decay_pheromones)^[n] w).pheromone_food x y
          = w.pheromone_food x y * PHEROMONE_DECAY_RATE ^ n ∧
      ((World.decay_pheromones)^[n] w).pheromone_home x y
          = w.pheromone_home x y * PHEROMONE_DECAY_RATE ^ n) ∧
    (∀ (w : World) (a : Ant), a.alive = true → w.is_valid_position a.x a.y = true →
      0 < a.carrying_food →
      (w.drop_ant_pheromone a).pheromone_home a.x a.y
          = min MAX_PHEROMONE_STRENGTH (w.pheromone_home a.x a.y + 10) ∧
      (w.pheromone_home a.x a.y = 95 →
        (w.drop_ant_pheromone a).pheromone_home a.x a.y = 100)) ∧
    (∀ w : World,
      (∀ x y, 0 ≤ w.pheromone_food x y ∧ w.pheromone_food x y ≤ MAX_PHEROMONE_STRENGTH ∧
              0 ≤ w.pheromone_home x y ∧ w.pheromone_home x y ≤ MAX_PHEROMONE_STRENGTH) →
      ∀ x y, 0 ≤ (w.update_pheromones).pheromone_food x y ∧
          (w.update_pheromones).pheromone_food x y ≤ MAX_PHEROMONE_STRENGTH ∧
          0 ≤ (w.update_pheromones).pheromone_home x y ∧
          (w.update_pheromones).pheromone_home x y ≤ MAX_PHEROMONE_STRENGTH) := by
  refine ⟨?_, ?_, ?_⟩
  · intro w n
    induction n with
    | zero => intro x y; simp
    | succ n ih =>
      intro x y
      rw [Function.iterate_succ_apply']
      have h := ih x y
      constructor
      · show ((World.decay_pheromones)^[n] w).pheromone_food x y * PHEROMONE_DECAY_RATE = _
        rw [h.1, pow_succ]
        ring
      · show ((World.decay_pheromones)^[n] w).pheromone_home x y * PHEROMONE_DECAY_RATE = _
        rw [h.2, pow_succ]
        ring
  · intro w a ha hv hc
    have hmain : (w.drop_ant_pheromone a).pheromone_home a.x a.y
        = min MAX_PHEROMONE_STRENGTH (w.pheromone_home a.x a.y + 10) := by
      unfold World.drop_ant_pheromone
      rw [if_pos ⟨ha, hv⟩, if_pos hc]
      simp
    refine ⟨hmain, fun h95 => ?_⟩
    rw [hmain, h95]
    norm_num [MAX_PHEROMONE_STRENGTH]
  · intro w hw
    have hrate0 : (0 : ℚ) ≤ PHEROMONE_DECAY_RATE := by norm_num [PHEROMONE_DECAY_RATE]
    have hrate1 : PHEROMONE_DECAY_RATE ≤ (1 : ℚ) := by norm_num [PHEROMONE_DECAY_RATE]
    have hdec : ∀ x y,
        0 ≤ (w.decay_pheromones).pheromone_food x y ∧
        (w.decay_pheromones).pheromone_food x y ≤ MAX_PHEROMONE_STRENGTH ∧
        0 ≤ (w.decay_pheromones).pheromone_home x y ∧
        (w.decay_pheromones).pheromone_home x y ≤ MAX_PHEROMONE_STRENGTH := by
      intro x y
      have h := hw x y
      refine ⟨mul_nonneg h.1 hrate0, ?_, mul_nonneg h.2.2.1 hrate0, ?_⟩
      · calc w.pheromone_food x y * PHEROMONE_DECAY_RATE
            ≤ w.pheromone_food x y * 1 := by
              exact mul_le_mul_of_nonneg_left hrate1 h.1
          _ = w.pheromone_food x y := mul_one _
          _ ≤ MAX_PHEROMONE_STRENGTH := h.2.1
      · calc w.pheromone_home x y * PHEROMONE_DECAY_RATE
            ≤ w.pheromone_home x y * 1 := by
              exact mul_le_mul_of_nonneg_left hrate1 h.2.2.1
          _ = w.pheromone_home x y := mul_one _
          _ ≤ MAX_PHEROMONE_STRENGTH := h.2.2.2
    have hfold : ∀ (l : List Ant) (v : World),
        (∀ x y, 0 ≤ v.pheromone_food x y ∧ v.pheromone_food x y ≤ MAX_PHEROMONE_STRENGTH ∧
                0 ≤ v.pheromone_home x y ∧ v.pheromone_home x y ≤ MAX_PHEROMONE_STRENGTH) →
        ∀ x y, 0 ≤ (l.foldl World.drop_ant_pheromone v).pheromone_food x y ∧
            (l.foldl World.drop_ant_pheromone v).pheromone_food x y ≤ MAX_PHEROMONE_STRENGTH ∧
            0 ≤ (l.foldl World.drop_ant_pheromone v).pheromone_home x y ∧
            (l.foldl World.drop_ant_pheromone v).pheromone_home x y ≤ MAX_PHEROMONE_STRENGTH := by
      intro l
      induction l with
      | nil => intro v hv; exact hv
      | cons a t ih =>
        intro v hv
        exact ih _ (drop_ant_pheromone_bounds v a hv)
    exact hfold _ _ hdec

/-- Witness for C7 on the constant-95 home field: one decay step scales by
the rate, and the carrying ant's deposit at (1, 1) clamps 95 + 10 to 100. -/
theorem c7_pheromone_decay_and_clamp_witness :
    ((World.decay_pheromones)^[1] world_ph95).pheromone_home 3 3 = 95 * PHEROMONE_DECAY_RATE ^ 1 ∧
    (world_ph95.drop_ant_pheromone { Ant.init 1 1 0 with carrying_food := 2 }).pheromone_home 1 1
        = 100 := by
  constructor
  · exact (c7_pheromone_decay_and_clamp.1 world_ph95 1 3 3).2
  · exact (c7_pheromone_decay_and_clamp.2.1 world_ph95
      { Ant.init 1 1 0 with carrying_food := 2 } rfl (by decide) (by norm_num)).2 rfl

/-! ## Claim C6: food collection -/

theorem get_food_at_pos_valid (w : World) (x y : Int) (h : 0 < w.get_food_at x y) :
    w.is_valid_position x y = true := by
  by_cases hv : w.is_valid_position x y = true
  · exact hv
  · unfold World.get_food_at at h
    rw [if_pos hv] at h
    exact absurd h (lt_irrefl 0)

theorem ants_remove_food_at (w : World) (x y : Int) (amount : ℚ) :
    ((w.remove_food_at x y amount).2).ants = w.ants := by
  unfold World.remove_food_at
  split <;> rfl

/-- C6: collecting on a cell with food and spare capacity transfers exactly
min(available, remaining capacity) into carried food and leaves the
difference on the cell; and takeFood removes and returns
min(requested, available), never driving a nonnegative cell negative. -/
theorem c6_collect_food_transfers_min :
    (∀ (w : World) (i : Nat) (r : AntRand) (a : Ant),
      w.ants[i]? = some a →
      0 < w.get_food_at a.x a.y →
      a.carrying_food < ANT_CARRYING_CAPACITY →
      ((w.action_collect_food i r).ants[i]?).map Ant.carrying_food
          = some (a.carrying_food +
              min (w.get_food_at a.x a.y) (ANT_CARRYING_CAPACITY - a.carrying_food)) ∧
      (w.action_collect_food i r).get_food_at a.x a.y
          = w.get_food_at a.x a.y -
              min (w.get_food_at a.x a.y) (ANT_CARRYING_CAPACITY - a.carrying_food)) ∧
    (∀ (w : World) (x y : Int) (amount : ℚ),
      w.is_valid_position x y = true →
      (w.remove_food_at x y amount).1 = min amount (w.get_food_at x y) ∧
      (w.remove_food_at x y amount).2.get_food_at x y
          = w.get_food_at x y - min amount (w.get_food_at x y) ∧
      (0 ≤ w.get_food_at x y → 0 ≤ (w.remove_food_at x y amount).2.get_food_at x y)) := by
  have hget : ∀ (v : World) (x y : Int), v.is_valid_position x y = true →
      v.get_food_at x y = v.food x y := by
    intro v x y hv
    unfold World.get_food_at
    simp [hv]
  have hremove : ∀ (w : World) (x y : Int) (amount : ℚ),
      w.is_valid_position x y = true →
      (w.remove_food_at x y amount).1 = min amount (w.get_food_at x y) ∧
      (w.remove_food_at x y amount).2.get_food_at x y
          = w.get_food_at x y - min amount (w.get_food_at x y) := by
    intro w x y amount hv
    have hv2 : ((w.remove_food_at x y amount).2).is_valid_position x y = true := by
      unfold World.remove_food_at
      rw [if_pos hv]
      exact hv
    have hfd : ((w.remove_food_at x y amount).2).food x y
        = w.food x y - min amount (w.food x y) := by
      unfold World.remove_food_at
      rw [if_pos hv]
      simp
    constructor
    · unfold World.remove_food_at
      rw [if_pos hv, hget w x y hv]
    · rw [hget _ x y hv2, hfd, hget w x y hv]
  refine ⟨?_, ?_⟩
  · intro w i r a hi hf hc
    have hv : w.is_valid_position a.x a.y = true := get_food_at_pos_valid w a.x a.y hf
    have hlen : i < w.ants.length := by
      rcases List.getElem?_eq_some.mp hi with ⟨h, _⟩
      exact h
    have hrm := hremove w a.x a.y
      (min (w.get_food_at a.x a.y) (ANT_CARRYING_CAPACITY - a.carrying_food)) hv
    have hmin : min (min (w.get_food_at a.x a.y) (ANT_CARRYING_CAPACITY - a.carrying_food))
        (w.get_food_at a.x a.y)
        = min (w.get_food_at a.x a.y) (ANT_CARRYING_CAPACITY - a.carrying_food) :=
      min_eq_left (min_le_left _ _)
    constructor
    · simp only [World.action_collect_food, hi]
      rw [if_pos ⟨hf, hc⟩]
      have hlen2 : i < ((w.remove_food_at a.x a.y
          (min (w.get_food_at a.x a.y) (ANT_CARRYING_CAPACITY - a.carrying_food))).2).ants.length := by
        rw [ants_remove_food_at]
        exact hlen
      simp only [World.set_ant, List.getElem?_set_self hlen2, Option.map_some]
      rfl
    · simp only [World.action_collect_food, hi]
      rw [if_pos ⟨hf, hc⟩]
      have hsame : ∀ (v : World) (j : Nat) (b : Ant),
          (v.set_ant j b).get_food_at a.x a.y = v.get_food_at a.x a.y := by
        intro v j b
        rfl
      rw [hsame, hrm.2, hmin]
  · intro w x y amount hv
    refine ⟨(hremove w x y amount hv).1, (hremove w x y amount hv).2, fun h0 => ?_⟩
    rw [(hremove w x y amount hv).2]
    have : min amount (w.get_food_at x y) ≤ w.get_food_at x y := min_le_right _ _
    linarith

/-- Witness for C6: on the cell holding 4 food, a fresh ant (capacity 3
remaining) collects exactly 3 and leaves 1. -/
theorem c6_collect_food_transfers_min_witness :
    ((world_food4.action_collect_food 0 rand0).ants[0]?).map Ant.carrying_food = some 3 ∧
    (world_food4.action_collect_food 0 rand0).get_food_at 0 0 = 1 := by
  have h := c6_collect_food_transfers_min.1 world_food4 0 rand0 (Ant.init 0 0 0)
    rfl (by decide) (by decide)
  have h4 : world_food4.get_food_at 0 0 = 4 := by decide
  have hc0 : (Ant.init 0 0 0).carrying_food = 0 := rfl
  have hx : (Ant.init 0 0 0).x = 0 := rfl
  have hy : (Ant.init 0 0 0).y = 0 := rfl
  rw [hx, hy, hc0, h4] at h
  have hm : min (4 : ℚ) (ANT_CARRYING_CAPACITY - 0) = 3 := by
    norm_num [ANT_CARRYING_CAPACITY]
  rw [hm] at h
  constructor
  · rw [h.1]
    norm_num
  · rw [h.2]
    norm_num

/-! ## Projection lemmas for the ant-state mutators -/

@[simp] theorem add_memory_alive (a : Ant) (md : MemoryData) : (a.add_memory md).alive = a.alive := rfl

@[simp] theorem add_memory_x (a : Ant) (md : MemoryData) : (a.add_memory md).x = a.x := rfl

@[simp] theorem add_memory_y (a : Ant) (md : MemoryData) : (a.add_memory md).y = a.y := rfl

@[simp] theorem add_memory_energy (a : Ant) (md : MemoryData) : (a.add_memory md).energy = a.energy := rfl

@[simp] theorem add_memory_carrying (a : Ant) (md : MemoryData) :
    (a.add_memory md).carrying_food = a.carrying_food := rfl

@[simp] theorem add_memory_max_energy (a : Ant) (md : MemoryData) :
    (a.add_memory md).max_energy = a.max_energy := rfl

@[simp] theorem add_memory_task (a : Ant) (md : MemoryData) :
    (a.add_memory md).current_task = a.current_task := rfl

@[simp] theorem strengthen_alive (a : Ant) (j : Nat) (t : ℚ) :
    (a.strengthen_relationship j t).alive = a.alive := rfl

@[simp] theorem strengthen_x (a : Ant) (j : Nat) (t : ℚ) :
    (a.strengthen_relationship j t).x = a.x := rfl

@[simp] theorem strengthen_y (a : Ant) (j : Nat) (t : ℚ) :
    (a.strengthen_relationship j t).y = a.y := rfl

@[simp] theorem strengthen_energy (a : Ant) (j : Nat) (t : ℚ) :
    (a.strengthen_relationship j t).energy = a.energy := rfl

@[simp] theorem post_update_alive (a : Ant) (t : ℚ) : (a.post_update t).alive = a.alive := rfl

@[simp] theorem post_update_x (a : Ant) (t : ℚ) : (a.post_update t).x = a.x := rfl

@[simp] theorem post_update_y (a : Ant) (t : ℚ) : (a.post_update t).y = a.y := rfl

@[simp] theorem post_update_energy (a : Ant) (t : ℚ) : (a.post_update t).energy = a.energy := rfl

theorem update_ai_decision_projections (a : Ant) (r : AntRand) :
    (a.update_ai_decision r).alive = a.alive ∧
    (a.update_ai_decision r).x = a.x ∧
    (a.update_ai_decision r).y = a.y ∧
    (a.update_ai_decision r).energy = a.energy ∧
    (a.update_ai_decision r).carrying_food = a.carrying_food ∧
    (a.update_ai_decision r).max_energy = a.max_energy := by
  unfold Ant.update_ai_decision
  dsimp only
  split
  · split <;> exact ⟨rfl, rfl, rfl, rfl, rfl, rfl⟩
  · exact ⟨rfl, rfl, rfl, rfl, rfl, rfl⟩

theorem move_towards_target_projections (a : Ant) (w : World) :
    (a.move_towards_target w).alive = a.alive ∧
    (a.move_towards_target w).energy = a.energy ∧
    (a.move_towards_target w).carrying_food = a.carrying_food ∧
    (a.move_towards_target w).max_energy = a.max_energy ∧
    (a.move_towards_target w).current_task = a.current_task := by
  unfold Ant.move_towards_target
  split
  · exact ⟨rfl, rfl, rfl, rfl, rfl⟩
  · dsimp only
    repeat' split
    all_goals exact ⟨rfl, rfl, rfl, rfl, rfl⟩

theorem move_towards_target_valid (a : Ant) (w : World)
    (h : w.is_valid_position a.x a.y = true) :
    w.is_valid_position (a.move_towards_target w).x (a.move_towards_target w).y = true := by
  unfold Ant.move_towards_target
  split
  · exact h
  · dsimp only
    repeat' split
    all_goals first
      | exact h
      | (rename_i hcan; exact can_move_to_valid w _ _ hcan)

/-! ## World-shape lemmas: which operations leave the ant list and the
grid dimensions untouched -/

theorem ants_set_ant (w : World) (i : Nat) (a : Ant) :
    (w.set_ant i a).ants = w.ants.set i a := rfl

theorem ants_add_food_storage (w : World) (amount : ℚ) :
    (w.add_food_storage amount).ants = w.ants := rfl

theorem ants_dig_tunnel_at (w : World) (x y : Int) :
    (w.dig_tunnel_at x y).ants = w.ants := by
  unfold World.dig_tunnel_at
  split <;> rfl

@[simp] theorem valid_set_ant (w : World) (i : Nat) (a : Ant) (x y : Int) :
    (w.set_ant i a).is_valid_position x y = w.is_valid_position x y := rfl

@[simp] theorem valid_remove_food_at (w : World) (x0 y0 : Int) (amt : ℚ) (x y : Int) :
    ((w.remove_food_at x0 y0 amt).2).is_valid_position x y = w.is_valid_position x y := by
  unfold World.remove_food_at
  split <;> rfl

@[simp] theorem valid_dig_tunnel_at (w : World) (x0 y0 : Int) (x y : Int) :
    (w.dig_tunnel_at x0 y0).is_valid_position x y = w.is_valid_position x y := by
  unfold World.dig_tunnel_at
  split <;> rfl

@[simp] theorem valid_add_food_storage (w : World) (amt : ℚ) (x y : Int) :
    (w.add_food_storage amt).is_valid_position x y = w.is_valid_position x y := rfl

@[simp] theorem can_move_to_set_ant (w : World) (i : Nat) (a : Ant) (x y : Int) :
    (w.set_ant i a).can_move_to x y = w.can_move_to x y := rfl

theorem move_towards_target_set_ant (a : Ant) (w : World) (i : Nat) (b : Ant) :
    a.move_towards_target (w.set_ant i b) = a.move_towards_target w := rfl

@[simp] theorem move_alive (a : Ant) (w : World) :
    (a.move_towards_target w).alive = a.alive := (move_towards_target_projections a w).1

@[simp] theorem move_energy (a : Ant) (w : World) :
    (a.move_towards_target w).energy = a.energy := (move_towards_target_projections a w).2.1

@[simp] theorem move_carrying (a : Ant) (w : World) :
    (a.move_towards_target w).carrying_food = a.carrying_food :=
  (move_towards_target_projections a w).2.2.1

@[simp] theorem move_max_energy (a : Ant) (w : World) :
    (a.move_towards_target w).max_energy = a.max_energy :=
  (move_towards_target_projections a w).2.2.2.1

@[simp] theorem move_task (a : Ant) (w : World) :
    (a.move_towards_target w).current_task = a.current_task :=
  (move_towards_target_projections a w).2.2.2.2

/-! ## Generic ways to establish the ActionSpec frame conditions -/

theorem actionSpec_refl (w : World) (i : Nat) (g : Bool) : ActionSpec w w i g :=
  ⟨rfl, fun _ _ => rfl,
    fun _ b _ hb => ⟨b, hb, rfl, rfl, rfl⟩,
    fun b hb => ⟨b, hb, rfl, fun hv => hv, fun _ => le_refl _⟩⟩

theorem actionSpec_set_of (w v : World) (i : Nat) (a a2 : Ant) (g : Bool)
    (hvw : v.ants = w.ants)
    (hval : ∀ x y, v.is_valid_position x y = w.is_valid_position x y)
    (ha : w.ants[i]? = some a)
    (hal : a2.alive = a.alive)
    (hx : w.is_valid_position a.x a.y = true → w.is_valid_position a2.x a2.y = true)
    (he : g = false → a2.energy ≤ a.energy) :
    ActionSpec w (v.set_ant i a2) i g := by
  have hlen : i < w.ants.length := (List.getElem?_eq_some.mp ha).1
  refine ⟨?_, fun x y => hval x y, ?_, ?_⟩
  · simp [World.set_ant, hvw]
  · intro k b hk hb
    rw [ants_set_ant, hvw, List.getElem?_set_ne (Ne.symm hk)] at hb
    exact ⟨b, hb, rfl, rfl, rfl⟩
  · intro b hb
    rw [ants_set_ant, hvw, List.getElem?_set_self hlen] at hb
    cases hb
    exact ⟨a, ha, hal, hx, he⟩

theorem actionSpec_set_two (w : World) (i j : Nat) (a a2 b b2 : Ant) (g : Bool)
    (hij : j ≠ i)
    (ha : w.ants[i]? = some a) (hb : w.ants[j]? = some b)
    (hal : a2.alive = a.alive)
    (hx : w.is_valid_position a.x a.y = true → w.is_valid_position a2.x a2.y = true)
    (he : g = false → a2.energy ≤ a.energy)
    (hbal : b2.alive = b.alive) (hbx : b2.x = b.x) (hby : b2.y = b.y) :
    ActionSpec w ((w.set_ant i a2).set_ant j b2) i g := by
  have hleni : i < w.ants.length := (List.getElem?_eq_some.mp ha).1
  have hlenj : j < w.ants.length := (List.getElem?_eq_some.mp hb).1
  refine ⟨?_, fun _ _ => rfl, ?_, ?_⟩
  · simp [World.set_ant]
  · intro k c hk hc
    by_cases hkj : k = j
    · subst hkj
      have hlenj2 : k < ((w.set_ant i a2).ants).length := by
        simp [World.set_ant]
        exact hlenj
      rw [ants_set_ant, List.getElem?_set_self hlenj2] at hc
      cases hc
      exact ⟨b, hb, hbal, hbx, hby⟩
    · rw [ants_set_ant, List.getElem?_set_ne (Ne.symm hkj), ants_set_ant,
        List.getElem?_set_ne (Ne.symm hk)] at hc
      exact ⟨c, hc, rfl, rfl, rfl⟩
  · intro c hc
    rw [ants_set_ant, List.getElem?_set_ne hij, ants_set_ant,
      List.getElem?_set_self hleni] at hc
    cases hc
    exact ⟨a, ha, hal, hx, he⟩

/-! ## Frame lemmas for the eight task behaviors -/

theorem action_explore_spec (w : World) (i : Nat) (r : AntRand) :
    ActionSpec w (w.action_explore i r) i false := by
  rcases ha : w.ants[i]? with _ | a
  · rw [show w.action_explore i r = w by simp only [World.action_explore, ha]]
    exact actionSpec_refl w i false
  · simp only [World.action_explore, ha]
    refine actionSpec_set_of w w i a _ false rfl (fun _ _ => rfl) ha ?_ ?_ ?_
    · repeat' split
      all_goals simp
    · intro hv
      repeat' split
      all_goals exact move_towards_target_valid _ w hv
    · intro _
      repeat' split
      all_goals simp

theorem action_move_to_food_spec (w : World) (i : Nat) :
    ActionSpec w (w.action_move_to_food i) i false := by
  rcases ha : w.ants[i]? with _ | a
  · rw [show w.action_move_to_food i = w by simp only [World.action_move_to_food, ha]]
    exact actionSpec_refl w i false
  · simp only [World.action_move_to_food, ha]
    split
    · refine actionSpec_set_of w w i a _ false rfl (fun _ _ => rfl) ha ?_ ?_ ?_
      · simp
      · intro hv
        exact move_towards_target_valid _ w hv
      · intro _
        simp
    · exact actionSpec_set_of w w i a _ false rfl (fun _ _ => rfl) ha rfl
        (fun hv => hv) (fun _ => le_refl _)

theorem action_collect_food_spec (w : World) (i : Nat) (r : AntRand) :
    ActionSpec w (w.action_collect_food i r) i false := by
  rcases ha : w.ants[i]? with _ | a
  · rw [show w.action_collect_food i r = w by simp only [World.action_collect_food, ha]]
    exact actionSpec_refl w i false
  · simp only [World.action_collect_food, ha]
    split
    · exact actionSpec_set_of w _ i a _ false (ants_remove_food_at _ _ _ _)
        (fun x y => valid_remove_food_at _ _ _ _ x y) ha rfl (fun hv => hv) (fun _ => le_refl _)
    · exact actionSpec_set_of w w i a _ false rfl (fun _ _ => rfl) ha rfl
        (fun hv => hv) (fun _ => le_refl _)

theorem action_return_home_spec (w : World) (i : Nat) (r : AntRand) :
    ActionSpec w (w.action_return_home i r) i false := by
  rcases ha : w.ants[i]? with _ | a
  · rw [show w.action_return_home i r = w by simp only [World.action_return_home, ha]]
    exact actionSpec_refl w i false
  · simp only [World.action_return_home, ha]
    split
    · split
      · refine actionSpec_set_of w _ i a _ false (ants_add_food_storage _ _)
          (fun x y => valid_add_food_storage _ _ x y) ha ?_ ?_ ?_
        · simp
        · intro hv
          exact move_towards_target_valid _ w hv
        · intro _
          simp
      · refine actionSpec_set_of w w i a _ false rfl (fun _ _ => rfl) ha ?_ ?_ ?_
        · simp
        · intro hv
          exact move_towards_target_valid _ w hv
        · intro _
          simp
    · exact actionSpec_set_of w w i a _ false rfl (fun _ _ => rfl) ha rfl
        (fun hv => hv) (fun _ => le_refl _)

theorem action_dig_tunnel_spec (w : World) (i : Nat) (r : AntRand) :
    ActionSpec w (w.action_dig_tunnel i r) i false := by
  rcases ha : w.ants[i]? with _ | a
  · rw [show w.action_dig_tunnel i r = w by simp only [World.action_dig_tunnel, ha]]
    exact actionSpec_refl w i false
  · simp only [World.action_dig_tunnel, ha]
    split
    · split
      · refine actionSpec_set_of w _ i a _ false (ants_dig_tunnel_at _ _ _)
          (fun x y => valid_dig_tunnel_at _ _ _ x y) ha rfl (fun hv => hv) ?_
        intro _
        show a.energy - DIGGING_ENERGY_COST ≤ a.energy
        have : (0 : ℚ) ≤ DIGGING_ENERGY_COST := by norm_num [DIGGING_ENERGY_COST]
        linarith
      · exact actionSpec_refl w i false
    · exact actionSpec_set_of w w i a _ false rfl (fun _ _ => rfl) ha rfl
        (fun hv => hv) (fun _ => le_refl _)

theorem find_nearest_ant_ne (w : World) (i j : Nat)
    (h : w.find_nearest_ant i = some j) : j ≠ i := by
  unfold World.find_nearest_ant at h
  rcases hself : w.ants[i]? with _ | self
  · rw [hself] at h
    cases h
  · rw [hself] at h
    rcases Option.map_eq_some'.mp h with ⟨⟨p, d⟩, hfold, hp⟩
    subst hp
    have key : ∀ (l : List (Nat × Ant)) (acc : Option (Nat × Int)),
        (∀ q dd, acc = some (q, dd) → q ≠ i) →
        ∀ q dd, l.foldl (nearest_ant_step i self.x self.y) acc = some (q, dd) → q ≠ i := by
      intro l
      induction l with
      | nil => exact fun acc hacc q dd hq => hacc q dd hq
      | cons hd tl ih =>
        intro acc hacc q dd hq
        refine ih _ ?_ q dd hq
        intro q2 dd2 hstep
        unfold nearest_ant_step at hstep
        split at hstep
        · next hcond =>
          dsimp only at hstep
          split at hstep
          · cases hstep
            exact hcond.1
          · exact hacc q2 dd2 hstep
        · exact hacc q2 dd2 hstep
    exact key _ none (fun q dd hq => by cases hq) p d hfold

theorem action_follow_ant_spec (w : World) (i : Nat) (r : AntRand) :
    ActionSpec w (w.action_follow_ant i r) i false := by
  rcases ha : w.ants[i]? with _ | a
  · rw [show w.action_follow_ant i r = w by simp only [World.action_follow_ant, ha]]
    exact actionSpec_refl w i false
  · simp only [World.action_follow_ant, ha]
    rcases hj : w.find_nearest_ant i with _ | j
    · exact actionSpec_set_of w w i a _ false rfl (fun _ _ => rfl) ha rfl
        (fun hv => hv) (fun _ => le_refl _)
    · have hji : j ≠ i := find_nearest_ant_ne w i j hj
      dsimp only
      rcases hb : w.ants[j]? with _ | b
      · exact actionSpec_refl w i false
      · dsimp only
        split
        · split
          · split
            · refine actionSpec_set_two w i j a _ b _ false hji ha hb ?_ ?_ ?_ rfl rfl rfl
              · simp
              · intro hv
                exact move_towards_target_valid _ w hv
              · intro _
                simp
            · refine actionSpec_set_two w i j a _ b _ false hji ha hb ?_ ?_ ?_ rfl rfl rfl
              · simp
              · intro hv
                exact move_towards_target_valid _ w hv
              · intro _
                simp
          · refine actionSpec_set_two w i j a _ b _ false hji ha hb ?_ ?_ ?_ rfl rfl rfl
            · simp
            · intro hv
              exact move_towards_target_valid _ w hv
            · intro _
              simp
        · refine actionSpec_set_of w w i a _ false rfl (fun _ _ => rfl) ha ?_ ?_ ?_
          · simp
          · intro hv
            exact move_towards_target_valid _ w hv
          · intro _
            simp

theorem action_rest_spec (w : World) (i : Nat) :
    ActionSpec w (w.action_rest i) i true := by
  rcases ha : w.ants[i]? with _ | a
  · rw [show w.action_rest i = w by simp only [World.action_rest, ha]]
    exact actionSpec_refl w i true
  · simp only [World.action_rest, ha]
    refine actionSpec_set_of w w i a _ true rfl (fun _ _ => rfl) ha ?_ ?_ ?_
    · repeat' split
      all_goals rfl
    · intro hv
      repeat' split
      all_goals exact hv
    · intro hcon
      exact Bool.noConfusion hcon

theorem action_help_ant_spec (w : World) (i : Nat) (r : AntRand) :
    ActionSpec w (w.action_help_ant i r) i false := by
  rcases ha : w.ants[i]? with _ | a
  · rw [show w.action_help_ant i r = w by simp only [World.action_help_ant, ha]]
    exact actionSpec_refl w i false
  · simp only [World.action_help_ant, ha]
    rcases hj : w.find_nearest_ant i with _ | j
    · exact actionSpec_set_of w w i a _ false rfl (fun _ _ => rfl) ha rfl
        (fun hv => hv) (fun _ => le_refl _)
    · have hji : j ≠ i := find_nearest_ant_ne w i j hj
      dsimp only
      rcases hb : w.ants[j]? with _ | b
      · exact actionSpec_refl w i false
      · dsimp only
        split
        · split
          · split
            · split
              · refine actionSpec_set_two w i j a _ b _ false hji ha hb ?_ ?_ ?_ rfl rfl rfl
                · simp
                · intro hv
                  exact move_towards_target_valid _ w hv
                · intro _
                  simp [DIGGING_ENERGY_COST]
              · refine actionSpec_set_of w w i a _ false rfl (fun _ _ => rfl) ha ?_ ?_ ?_
                · simp
                · intro hv
                  exact move_towards_target_valid _ w hv
                · intro _
                  simp
            · refine actionSpec_set_of w w i a _ false rfl (fun _ _ => rfl) ha ?_ ?_ ?_
              · simp
              · intro hv
                exact move_towards_target_valid _ w hv
              · intro _
                simp
          · refine actionSpec_set_of w w i a _ false rfl (fun _ _ => rfl) ha ?_ ?_ ?_
            · simp
            · intro hv
              exact move_towards_target_valid _ w hv
            · intro _
              simp
        · exact actionSpec_set_of w w i a _ false rfl (fun _ _ => rfl) ha rfl
            (fun hv => hv) (fun _ => le_refl _)

theorem ActionSpec.weaken {w w2 : World} {i : Nat} (h : ActionSpec w w2 i false) (g : Bool) :
    ActionSpec w w2 i g := by
  obtain ⟨h1, h2, h3, h4⟩ := h
  refine ⟨h1, h2, h3, fun b hb => ?_⟩
  obtain ⟨c, hc, e1, e2, e3⟩ := h4 b hb
  exact ⟨c, hc, e1, e2, fun _ => e3 rfl⟩

theorem execute_action_spec (w : World) (i : Nat) (r : AntRand) :
    ActionSpec w (w.execute_action i r) i true ∧
    (∀ a, w.ants[i]? = some a → a.current_task ≠ Task.rest →
      ActionSpec w (w.execute_action i r) i false) := by
  rcases ha : w.ants[i]? with _ | a
  · rw [show w.execute_action i r = w by simp only [World.execute_action, ha]]
    exact ⟨actionSpec_refl w i true, fun _ _ _ => actionSpec_refl w i false⟩
  · simp only [World.execute_action, ha]
    rcases ht : a.current_task
    case rest =>
      refine ⟨action_rest_spec w i, fun a2 ha2 hne => ?_⟩
      cases ha2
      exact absurd ht hne
    case explore =>
      exact ⟨(action_explore_spec w i r).weaken true, fun _ _ _ => action_explore_spec w i r⟩
    case move_to_food =>
      exact ⟨(action_move_to_food_spec w i).weaken true, fun _ _ _ => action_move_to_food_spec w i⟩
    case collect_food =>
      exact ⟨(action_collect_food_spec w i r).weaken true, fun _ _ _ => action_collect_food_spec w i r⟩
    case return_home =>
      exact ⟨(action_return_home_spec w i r).weaken true, fun _ _ _ => action_return_home_spec w i r⟩
    case dig_tunnel =>
      exact ⟨(action_dig_tunnel_spec w i r).weaken true, fun _ _ _ => action_dig_tunnel_spec w i r⟩
    case follow_ant =>
      exact ⟨(action_follow_ant_spec w i r).weaken true, fun _ _ _ => action_follow_ant_spec w i r⟩
    case help_ant =>
      exact ⟨(action_help_ant_spec w i r).weaken true, fun _ _ _ => action_help_ant_spec w i r⟩

/-! ## Frame lemmas for the per-ant update -/

theorem ant_update_at_dead (w : World) (i : Nat) (r : AntRand) (a : Ant)
    (ha : w.ants[i]? = some a) (hd : a.alive = false) :
    w.ant_update_at i r = w := by
  simp only [World.ant_update_at, ha]
  rw [if_pos (by simp [hd])]

theorem ant_update_at_spec (w : World) (i : Nat) (r : AntRand) :
    (w.ant_update_at i r).ants.length = w.ants.length ∧
    (∀ x y, (w.ant_update_at i r).is_valid_position x y = w.is_valid_position x y) ∧
    (∀ k b, k ≠ i → (w.ant_update_at i r).ants[k]? = some b →
      ∃ c, w.ants[k]? = some c ∧ b.alive = c.alive ∧ b.x = c.x ∧ b.y = c.y) ∧
    (∀ b, (w.ant_update_at i r).ants[i]? = some b →
      ∃ c, w.ants[i]? = some c ∧
        (b.alive = true → c.alive = true) ∧
        (w.is_valid_position c.x c.y = true → w.is_valid_position b.x b.y = true) ∧
        (c.alive = true → c.tick_task r ≠ Task.rest → b.energy ≤ c.energy - 1/10) ∧
        (c.alive = true → c.energy - 1/10 ≤ 0 → b.alive = false)) := by
  rcases ha : w.ants[i]? with _ | a
  · have hw : w.ant_update_at i r = w := by simp only [World.ant_update_at, ha]
    rw [hw]
    refine ⟨rfl, fun _ _ => rfl, fun k b _ hb => ⟨b, hb, rfl, rfl, rfl⟩, fun b hb => ?_⟩
    rw [ha] at hb
    cases hb
  · have hlen : i < w.ants.length := (List.getElem?_eq_some.mp ha).1
    by_cases hal : a.alive = true
    case neg =>
      have hw := ant_update_at_dead w i r a ha (by revert hal; cases a.alive <;> simp)
      rw [hw]
      refine ⟨rfl, fun _ _ => rfl, fun k b _ hb => ⟨b, hb, rfl, rfl, rfl⟩, fun b hb => ?_⟩
      rw [ha] at hb
      cases hb
      exact ⟨a, rfl, fun h => h, fun h => h,
        fun hcon => absurd hcon hal, fun hcon => absurd hcon hal⟩
    case pos =>
      simp only [World.ant_update_at, ha]
      rw [if_neg (by simp [hal])]
      split
      case isTrue hdie =>
        refine ⟨by simp [World.set_ant], fun _ _ => rfl, ?_, ?_⟩
        · intro k b hk hb
          rw [ants_set_ant, List.getElem?_set_ne (Ne.symm hk)] at hb
          exact ⟨b, hb, rfl, rfl, rfl⟩
        · intro b hb
          rw [ants_set_ant, List.getElem?_set_self hlen] at hb
          cases hb
          refine ⟨a, rfl, ?_, fun hv => hv, fun _ _ => le_refl _, fun _ _ => rfl⟩
          intro hcon
          exact Bool.noConfusion hcon
      case isFalse hdie =>
        set a1 : Ant := a.decayed.update_ai_decision r with ha1
        set w1 : World := w.set_ant i a1 with hw1
        set w2 : World := w1.execute_action i r with hw2
        have hproj := update_ai_decision_projections a.decayed r
        rw [← ha1] at hproj
        have hw1i : w1.ants[i]? = some a1 := by
          rw [hw1, ants_set_ant]
          exact List.getElem?_set_self hlen
        have hexec := execute_action_spec w1 i r
        have hlen1 : w1.ants.length = w.ants.length := by
          rw [hw1, ants_set_ant]
          exact List.length_set w.ants i a1
        have hlen2 : w2.ants.length = w.ants.length := by
          rw [hw2]
          rw [(execute_action_spec w1 i r).1.1, hlen1]
        rcases h2 : w2.ants[i]? with _ | a2
        · exfalso
          have := List.getElem?_eq_none_iff.mp h2
          omega
        · dsimp only
          have hlen2i : i < w2.ants.length := by omega
          refine ⟨by simp [World.set_ant, hlen2], fun x y => ?_, ?_, ?_⟩
          · exact (execute_action_spec w1 i r).1.2.1 x y
          · intro k b hk hb
            rw [ants_set_ant, List.getElem?_set_ne (Ne.symm hk)] at hb
            obtain ⟨c, hc, e1, e2, e3⟩ := (execute_action_spec w1 i r).1.2.2.1 k b hk hb
            rw [hw1, ants_set_ant, List.getElem?_set_ne (Ne.symm hk)] at hc
            exact ⟨c, hc, e1, e2, e3⟩
          · intro b hb
            rw [ants_set_ant, List.getElem?_set_self hlen2i] at hb
            cases hb
            obtain ⟨c1, hc1, heqal, hvimp, _⟩ := (execute_action_spec w1 i r).1.2.2.2 a2 h2
            rw [hw1i] at hc1
            cases hc1
            refine ⟨a, rfl, ?_, ?_, ?_, ?_⟩
            · intro hba
              rw [post_update_alive, heqal, hproj.1] at hba
              exact hba
            · intro hv
              rw [post_update_x, post_update_y]
              apply hvimp
              rw [hproj.2.1, hproj.2.2.1]
              exact hv
            · intro _ hne
              have hne1 : a1.current_task ≠ Task.rest := hne
              obtain ⟨c2, hc2, _, _, he⟩ := ((execute_action_spec w1 i r).2 a1 hw1i hne1).2.2.2 a2 h2
              rw [hw1i] at hc2
              cases hc2
              have h1 : (a2.post_update r.now).energy = a2.energy := post_update_energy a2 r.now
              have h2e : a1.energy = a.energy - 1/10 := hproj.2.2.2.1
              rw [h1]
              calc a2.energy ≤ a1.energy := he rfl
                _ = a.energy - 1/10 := h2e
            · intro _ hdle
              exact absurd hdle hdie

/-! ## Frame lemmas for the world tick -/

theorem tick_loop_valid_fn (r : WorldRand) :
    ∀ (rem p : Nat) (w : World) (x y : Int),
      (World.tick_loop r rem p w).is_valid_position x y = w.is_valid_position x y := by
  intro rem
  induction rem with
  | zero => intro p w x y; rfl
  | succ rem ih =>
    intro p w x y
    simp only [World.tick_loop]
    rcases h1 : (w.ant_update_at p (r.ant_rand rem)).ants[p]? with _ | b
    · exact (ant_update_at_spec w p (r.ant_rand rem)).2.1 x y
    · dsimp only
      split
      · rw [ih (p+1) _ x y]
        exact (ant_update_at_spec w p (r.ant_rand rem)).2.1 x y
      · rw [ih p _ x y]
        exact (ant_update_at_spec w p (r.ant_rand rem)).2.1 x y

theorem tick_loop_all_alive (r : WorldRand) :
    ∀ (rem p : Nat) (w : World),
      p + rem = w.ants.length →
      (∀ (k : Nat) (a : Ant), k < p → w.ants[k]? = some a → a.alive = true) →
      ∀ (k : Nat) (a : Ant), (World.tick_loop r rem p w).ants[k]? = some a →
        a.alive = true := by
  intro rem
  induction rem with
  | zero =>
    intro p w hplen hpre k a hk
    have hklen : k < w.ants.length := (List.getElem?_eq_some.mp hk).1
    exact hpre k a (by omega) hk
  | succ rem ih =>
    intro p w hplen hpre k a hk
    simp only [World.tick_loop] at hk
    have hspec := ant_update_at_spec w p (r.ant_rand rem)
    have hplt : p < w.ants.length := by omega
    have hlen1 : (w.ant_update_at p (r.ant_rand rem)).ants.length = w.ants.length := hspec.1
    rcases h1 : (w.ant_update_at p (r.ant_rand rem)).ants[p]? with _ | b
    · exfalso
      have := List.getElem?_eq_none_iff.mp h1
      omega
    · simp only [h1] at hk
      by_cases hb : b.alive = true
      · rw [if_pos hb] at hk
        refine ih (p+1) _ (by omega) ?_ k a hk
        intro k2 a2 hk2 ha2
        by_cases hkp : k2 = p
        · subst hkp
          rw [h1] at ha2
          cases ha2
          exact hb
        · obtain ⟨c, hc, e1, _, _⟩ := hspec.2.2.1 k2 a2 hkp ha2
          rw [e1]
          exact hpre k2 c (by omega) hc
      · rw [if_neg hb] at hk
        refine ih p _ ?_ ?_ k a hk
        · show p + rem = ((w.ant_update_at p (r.ant_rand rem)).ants.eraseIdx p).length
          rw [List.length_eraseIdx_of_lt (by omega)]
          omega
        · intro k2 a2 hk2 ha2
          have hlt : k2 < p := hk2
          have herm : ((w.ant_update_at p (r.ant_rand rem)).ants.eraseIdx p)[k2]?
              = (w.ant_update_at p (r.ant_rand rem)).ants[k2]? :=
            List.getElem?_eraseIdx_of_lt _ _ _ hlt
          rw [show (({ w.ant_update_at p (r.ant_rand rem) with
              ants := (w.ant_update_at p (r.ant_rand rem)).ants.eraseIdx p } : World).ants[k2]?)
              = ((w.ant_update_at p (r.ant_rand rem)).ants.eraseIdx p)[k2]? from rfl, herm] at ha2
          obtain ⟨c, hc, e1, _, _⟩ := hspec.2.2.1 k2 a2 (by omega) ha2
          rw [e1]
          exact hpre k2 c (by omega) hc

theorem tick_loop_all_valid (r : WorldRand) :
    ∀ (rem p : Nat) (w : World),
      (∀ (k : Nat) (a : Ant), w.ants[k]? = some a → w.is_valid_position a.x a.y = true) →
      ∀ (k : Nat) (a : Ant), (World.tick_loop r rem p w).ants[k]? = some a →
        w.is_valid_position a.x a.y = true := by
  intro rem
  induction rem with
  | zero => intro p w hall k a hk; exact hall k a hk
  | succ rem ih =>
    intro p w hall k a hk
    simp only [World.tick_loop] at hk
    have hspec := ant_update_at_spec w p (r.ant_rand rem)
    have hall1 : ∀ (k2 : Nat) (a2 : Ant), (w.ant_update_at p (r.ant_rand rem)).ants[k2]? = some a2 →
        (w.ant_update_at p (r.ant_rand rem)).is_valid_position a2.x a2.y = true := by
      intro k2 a2 ha2
      rw [hspec.2.1 a2.x a2.y]
      by_cases hkp : k2 = p
      · rw [hkp] at ha2
        obtain ⟨c, hc, _, hvimp, _, _⟩ := hspec.2.2.2 a2 ha2
        exact hvimp (hall p c hc)
      · obtain ⟨c, hc, _, ex, ey⟩ := hspec.2.2.1 k2 a2 hkp ha2
        rw [ex, ey]
        exact hall k2 c hc
    rcases h1 : (w.ant_update_at p (r.ant_rand rem)).ants[p]? with _ | b
    · simp only [h1] at hk
      have hres := hall1 k a hk
      rw [hspec.2.1 a.x a.y] at hres
      exact hres
    · simp only [h1] at hk
      by_cases hb : b.alive = true
      · rw [if_pos hb] at hk
        have hres := ih (p+1) _ hall1 k a hk
        rw [hspec.2.1 a.x a.y] at hres
        exact hres
      · rw [if_neg hb] at hk
        have hall2 : ∀ (k2 : Nat) (a2 : Ant),
            ({ w.ant_update_at p (r.ant_rand rem) with
                ants := (w.ant_update_at p (r.ant_rand rem)).ants.eraseIdx p } : World).ants[k2]?
              = some a2 →
            ({ w.ant_update_at p (r.ant_rand rem) with
                ants := (w.ant_update_at p (r.ant_rand rem)).ants.eraseIdx p } : World).is_valid_position a2.x a2.y
              = true := by
          intro k2 a2 ha2
          by_cases hlt : k2 < p
          · rw [show (({ w.ant_update_at p (r.ant_rand rem) with
                ants := (w.ant_update_at p (r.ant_rand rem)).ants.eraseIdx p } : World).ants[k2]?)
                = ((w.ant_update_at p (r.ant_rand rem)).ants.eraseIdx p)[k2]? from rfl,
              List.getElem?_eraseIdx_of_lt _ _ _ hlt] at ha2
            exact hall1 k2 a2 ha2
          · rw [show (({ w.ant_update_at p (r.ant_rand rem) with
                ants := (w.ant_update_at p (r.ant_rand rem)).ants.eraseIdx p } : World).ants[k2]?)
                = ((w.ant_update_at p (r.ant_rand rem)).ants.eraseIdx p)[k2]? from rfl,
              List.getElem?_eraseIdx_of_ge _ _ _ (by omega)] at ha2
            exact hall1 (k2 + 1) a2 ha2
        have hres := ih p _ hall2 k a hk
        rw [show ({ w.ant_update_at p (r.ant_rand rem) with
            ants := (w.ant_update_at p (r.ant_rand rem)).ants.eraseIdx p } : World).is_valid_position a.x a.y
            = w.is_valid_position a.x a.y from hspec.2.1 a.x a.y] at hres
        exact hres

theorem ants_spawn_food_step (w : World) (r : WorldRand) :
    (w.spawn_food_step r).ants = w.ants := by
  unfold World.spawn_food_step
  rcases r.food_spawn with _ | ⟨x, y, amount⟩
  · rfl
  · dsimp only
    split <;> rfl

theorem valid_spawn_food_step (w : World) (r : WorldRand) (x y : Int) :
    (w.spawn_food_step r).is_valid_position x y = w.is_valid_position x y := by
  unfold World.spawn_food_step
  rcases r.food_spawn with _ | ⟨x0, y0, amount⟩
  · rfl
  · dsimp only
    split <;> rfl

theorem ants_drop_ant_pheromone (w : World) (a : Ant) :
    (w.drop_ant_pheromone a).ants = w.ants := by
  unfold World.drop_ant_pheromone
  repeat' split
  all_goals rfl

theorem valid_drop_ant_pheromone (w : World) (a : Ant) (x y : Int) :
    (w.drop_ant_pheromone a).is_valid_position x y = w.is_valid_position x y := by
  unfold World.drop_ant_pheromone
  repeat' split
  all_goals rfl

theorem ants_foldl_drop (l : List Ant) (v : World) :
    (l.foldl World.drop_ant_pheromone v).ants = v.ants := by
  induction l generalizing v with
  | nil => rfl
  | cons a t ih =>
    rw [List.foldl_cons, ih, ants_drop_ant_pheromone]

theorem valid_foldl_drop (l : List Ant) (v : World) (x y : Int) :
    (l.foldl World.drop_ant_pheromone v).is_valid_position x y = v.is_valid_position x y := by
  induction l generalizing v with
  | nil => rfl
  | cons a t ih =>
    rw [List.foldl_cons, ih, valid_drop_ant_pheromone]

theorem ants_update_pheromones (w : World) :
    (w.update_pheromones).ants = w.ants := by
  unfold World.update_pheromones
  rw [ants_foldl_drop]
  rfl

theorem valid_update_pheromones (w : World) (x y : Int) :
    (w.update_pheromones).is_valid_position x y = w.is_valid_position x y := by
  unfold World.update_pheromones
  rw [valid_foldl_drop]
  rfl

theorem valid_spawn_new_ant (w : World) (r : WorldRand) (x y : Int) :
    (w.spawn_new_ant r).is_valid_position x y = w.is_valid_position x y := by
  unfold World.spawn_new_ant
  split
  · rfl
  · repeat' split
    all_goals rfl

theorem valid_check_colony_growth (w : World) (r : WorldRand) (x y : Int) :
    (w.check_colony_growth r).is_valid_position x y = w.is_valid_position x y := by
  unfold World.check_colony_growth
  split
  · exact valid_spawn_new_ant w r x y
  · rfl

theorem foldl_preserves_ant_fields {α : Type} (f : Ant → α → Ant)
    (hf : ∀ a k, (f a k).alive = a.alive ∧ (f a k).x = a.x ∧ (f a k).y = a.y) :
    ∀ (l : List α) (a : Ant),
      ((l.foldl f a).alive = a.alive ∧ (l.foldl f a).x = a.x ∧ (l.foldl f a).y = a.y) := by
  intro l
  induction l with
  | nil => exact fun a => ⟨rfl, rfl, rfl⟩
  | cons k t ih =>
    intro a
    rw [List.foldl_cons]
    obtain ⟨h1, h2, h3⟩ := ih (f a k)
    obtain ⟨g1, g2, g3⟩ := hf a k
    exact ⟨h1.trans g1, h2.trans g2, h3.trans g3⟩

theorem tunnel_locations_valid (w : World) :
    ∀ p ∈ w.tunnel_locations, w.is_valid_position p.1 p.2 = true := by
  intro p hp
  unfold World.tunnel_locations at hp
  rw [List.mem_flatMap] at hp
  obtain ⟨x, hx, hmem⟩ := hp
  rw [List.mem_filterMap] at hmem
  obtain ⟨y, hy, hif⟩ := hmem
  rw [List.mem_range] at hx
  rw [List.mem_range] at hy
  split at hif
  · cases hif
    show decide _ = true
    refine decide_eq_true ?_
    refine ⟨Int.natCast_nonneg x, ?_, Int.natCast_nonneg y, ?_⟩
    · show (x : Int) < (w.width : Int)
      omega
    · show (y : Int) < (w.height : Int)
      omega
  · cases hif

theorem check_colony_growth_ants_shape (w : World) (r : WorldRand) :
    (w.check_colony_growth r).ants = w.ants ∨
    ∃ na, (w.check_colony_growth r).ants = w.ants ++ [na] ∧ na.alive = true ∧
      w.is_valid_position na.x na.y = true := by
  unfold World.check_colony_growth
  split
  · unfold World.spawn_new_ant
    rcases hloc : (w.tunnel_locations)[r.tunnel_choice % w.tunnel_locations.length]? with _ | loc
    · left
      rfl
    · right
      have hmem : loc ∈ w.tunnel_locations := by
        obtain ⟨hlt, heq⟩ := List.getElem?_eq_some.mp hloc
        rw [← heq]
        exact List.getElem_mem hlt
      have hvalid := tunnel_locations_valid w loc hmem
      dsimp only
      refine ⟨_, rfl, ?_, ?_⟩
      · rcases most_experienced w.ants with _ | succ
        · rfl
        · dsimp only
          split
          · refine (foldl_preserves_ant_fields _ ?_ _ _).1
            intro a2 k
            dsimp only
            split <;> exact ⟨rfl, rfl, rfl⟩
          · rfl
      · rcases most_experienced w.ants with _ | succ
        · exact hvalid
        · dsimp only
          split
          · have hpr := foldl_preserves_ant_fields
              (fun na k => match (succ.memories)[k % succ.memories.length]? with
                | some m => na.add_memory
                    { mtype := "inherited_knowledge"
                      content := inherited_msg m.content
                      timestamp := m.timestamp
                      importance := m.importance * (3/10) }
                | none => na)
              (by intro a2 k; dsimp only; split <;> exact ⟨rfl, rfl, rfl⟩)
              (r.memory_sample.take (min 3 succ.memories.length))
              { Ant.init loc.1 loc.2 w.ants.length with preferred_tasks := succ.preferred_tasks }
            rw [hpr.2.1, hpr.2.2]
            exact hvalid
          · exact hvalid
  · left
    rfl

/-! ## Claim C2: energy decreases without Rest -/

/-- C2: a live agent whose executed task this tick is neither Rest nor
HelpAnt ends its update with energy at most its starting energy minus the
decay constant 0.1. -/
theorem c2_energy_decreases_without_rest (w : World) (i : Nat) (r : AntRand) (a : Ant)
    (ha : w.ants[i]? = some a) (halive : a.alive = true)
    (hrest : a.tick_task r ≠ Task.rest) (hhelp : a.tick_task r ≠ Task.help_ant) :
    ∃ b, (w.ant_update_at i r).ants[i]? = some b ∧ b.energy ≤ a.energy - 1/10 := by
  have hspec := ant_update_at_spec w i r
  have hlen : i < w.ants.length := (List.getElem?_eq_some.mp ha).1
  rcases hb : (w.ant_update_at i r).ants[i]? with _ | b
  · exfalso
    have hn := List.getElem?_eq_none_iff.mp hb
    rw [hspec.1] at hn
    omega
  · obtain ⟨c, hc, _, _, he, _⟩ := hspec.2.2.2 b hb
    rw [ha] at hc
    cases hc
    exact ⟨b, rfl, he halive hrest⟩

/-- Witness for C2: the fresh ant in the one-ant tunnel world executes
Explore and ends the tick at 99.9 energy or less. -/
theorem c2_energy_decreases_without_rest_witness :
    (Ant.init 1 1 0).alive = true ∧
    ∃ b, (world_one_ant.ant_update_at 0 rand0).ants[0]? = some b ∧
      b.energy ≤ (Ant.init 1 1 0).energy - 1/10 :=
  ⟨rfl, c2_energy_decreases_without_rest world_one_ant 0 rand0 (Ant.init 1 1 0)
    rfl rfl (by decide) (by decide)⟩

theorem tunnel_ne_soil_eq : (Terrain.tunnel = Terrain.soil) = False := eq_false (by decide)

theorem air_ne_soil_eq : (Terrain.air = Terrain.soil) = False := eq_false (by decide)

theorem getElem_pair_one {α : Type} (a b : α) (h : 1 < [a, b].length) : [a, b][1] = b := rfl

theorem getElem_pair_zero {α : Type} (a b : α) (h : 0 < [a, b].length) : [a, b][0] = a := rfl

/-! ## Claim C3: the helper energy transfer overflows max_energy -/

/-- C3 failing input: in the staged helper world, one update of the helper
ant leaves the helped digging ant at 103 energy with max_energy 100 — the
transfer in _action_help_ant is not clamped, violating the claimed
invariant energy ≤ maxEnergy. -/
theorem c3_help_transfer_exceeds_max :
    ((world_help.ant_update_at 0 rand0).ants[1]?).map (fun b => (b.energy, b.max_energy))
      = some (103, 100) ∧ (100 : ℚ) < 103 := by
  constructor
  · norm_num [World.ant_update_at, Ant.decayed, Ant.update_ai_decision, World.set_ant,
      World.execute_action, World.action_help_ant, World.find_nearest_ant, nearest_ant_step,
      dist2, Ant.move_towards_target, World.can_move_to, World.is_valid_position,
      Ant.strengthen_relationship, Ant.post_update, Ant.update_movement_history,
      Ant.age_memories, world_help, test_world, Ant.init, AI_UPDATE_FREQUENCY,
      ANT_VISION_RANGE, DIGGING_ENERGY_COST, RELATIONSHIP_STRENGTH_MAX,
      PHEROMONE_DECAY_RATE, List.enum, List.getElem?_cons_zero, List.getElem?_cons_succ,
      List.getElem_cons_zero, List.getElem_cons_succ, getElem_pair_one, getElem_pair_zero,
      tunnel_ne_soil_eq, air_ne_soil_eq]
  · norm_num

/-! ## Claim C4: death is terminal -/

/-- C4: an agent whose energy falls to 0 or below in the decay step is
marked dead in that update; dead agents are never changed by their update;
no update revives any agent; and after a full world tick every agent still
in the active list is alive (dead ones are removed within the tick). -/
theorem c4_death_is_terminal :
    (∀ (w : World) (i : Nat) (r : AntRand) (a : Ant),
      w.ants[i]? = some a → a.alive = true → a.energy - 1/10 ≤ 0 →
      ∃ b, (w.ant_update_at i r).ants[i]? = some b ∧ b.alive = false) ∧
    (∀ (w : World) (i : Nat) (r : AntRand) (a : Ant),
      w.ants[i]? = some a → a.alive = false → w.ant_update_at i r = w) ∧
    (∀ (w : World) (i k : Nat) (r : AntRand) (a b : Ant),
      w.ants[k]? = some a → a.alive = false →
      (w.ant_update_at i r).ants[k]? = some b → b.alive = false) ∧
    (∀ (w : World) (r : WorldRand), ∀ b ∈ (w.update r).ants, b.alive = true) := by
  refine ⟨?_, ?_, ?_, ?_⟩
  · intro w i r a ha halive hdie
    have hspec := ant_update_at_spec w i r
    have hlen : i < w.ants.length := (List.getElem?_eq_some.mp ha).1
    rcases hb : (w.ant_update_at i r).ants[i]? with _ | b
    · exfalso
      have hn := List.getElem?_eq_none_iff.mp hb
      rw [hspec.1] at hn
      omega
    · obtain ⟨c, hc, _, _, _, hd⟩ := hspec.2.2.2 b hb
      rw [ha] at hc
      cases hc
      exact ⟨b, rfl, hd halive hdie⟩
  · intro w i r a ha hdead
    exact ant_update_at_dead w i r a ha hdead
  · intro w i k r a b ha hdead hb
    have hspec := ant_update_at_spec w i r
    by_cases hk : k = i
    · subst hk
      obtain ⟨c, hc, himp, _, _, _⟩ := hspec.2.2.2 b hb
      rw [ha] at hc
      cases hc
      cases hba : b.alive
      · rfl
      · exact absurd (himp hba) (by simp [hdead])
    · obtain ⟨c, hc, he, _, _⟩ := hspec.2.2.1 k b hk hb
      rw [ha] at hc
      cases hc
      rw [he, hdead]
  · intro w r b hb
    unfold World.update at hb
    set w0 : World := { w with frame_count := w.frame_count + 1 } with hw0
    set wt : World := World.tick_loop r w0.ants.length 0 w0 with hwt
    have htick : ∀ (k : Nat) (a : Ant), wt.ants[k]? = some a → a.alive = true := by
      rw [hwt]
      exact tick_loop_all_alive r w0.ants.length 0 w0 (by omega)
        (fun k a hk0 _ => absurd hk0 (Nat.not_lt_zero k))
    have hsp : ((wt.spawn_food_step r).update_pheromones).ants = wt.ants := by
      rw [ants_update_pheromones, ants_spawn_food_step]
    rcases check_colony_growth_ants_shape ((wt.spawn_food_step r).update_pheromones) r with
      hsame | ⟨na, happ, hna, _⟩
    · rw [hsame, hsp] at hb
      obtain ⟨k, hk⟩ := List.getElem?_of_mem hb
      exact htick k b hk
    · rw [happ, hsp] at hb
      rcases List.mem_append.mp hb with hmem | hmem
      · obtain ⟨k, hk⟩ := List.getElem?_of_mem hmem
        exact htick k b hk
      · rw [List.mem_singleton.mp hmem]
        exact hna

/-- Witness for C4: the ant starting at energy 0.1 dies in the decay step
of its update. -/
theorem c4_death_is_terminal_witness :
    ∃ b, (world_dying.ant_update_at 0 rand0).ants[0]? = some b ∧ b.alive = false :=
  c4_death_is_terminal.1 world_dying 0 rand0 { Ant.init 1 1 0 with energy := 1/10 }
    rfl rfl (by norm_num)

/-! ## Claim C10: positions stay inside the grid -/

/-- C10: an agent with an in-bounds position still has an in-bounds
position after any agent update (and so does every other agent); movement
is accepted only to cells passing can_move_to, which implies in-bounds; a
move whose destination fails can_move_to only increments the stuck counter;
and a full world tick keeps every listed agent (including a newly spawned
one) inside the grid. -/
theorem c10_position_stays_in_bounds :
    (∀ (w : World) (i k : Nat) (r : AntRand) (a b : Ant),
      w.ants[k]? = some a → w.is_valid_position a.x a.y = true →
      (w.ant_update_at i r).ants[k]? = some b → w.is_valid_position b.x b.y = true) ∧
    (∀ (w : World) (x y : Int), w.can_move_to x y = true → w.is_valid_position x y = true) ∧
    (∀ (w : World) (a : Ant) (tx ty : Int), a.target = some (tx, ty) →
      ¬ w.can_move_to
          (a.x + (if tx - a.x ≠ 0 then (if tx - a.x > 0 then 1 else -1) else tx - a.x))
          (a.y + (if ty - a.y ≠ 0 then (if ty - a.y > 0 then 1 else -1) else ty - a.y)) = true →
      a.move_towards_target w = { a with stuck_counter := a.stuck_counter + 1 }) ∧
    (∀ (w : World) (r : WorldRand),
      (∀ a ∈ w.ants, w.is_valid_position a.x a.y = true) →
      ∀ b ∈ (w.update r).ants, w.is_valid_position b.x b.y = true) := by
  refine ⟨?_, can_move_to_valid, ?_, ?_⟩
  · intro w i k r a b ha hv hb
    have hspec := ant_update_at_spec w i r
    by_cases hk : k = i
    · subst hk
      obtain ⟨c, hc, _, hvimp, _, _⟩ := hspec.2.2.2 b hb
      rw [ha] at hc
      cases hc
      exact hvimp hv
    · obtain ⟨c, hc, _, ex, ey⟩ := hspec.2.2.1 k b hk hb
      rw [ha] at hc
      cases hc
      rw [ex, ey]
      exact hv
  · intro w a tx ty htar hcan
    unfold Ant.move_towards_target
    rw [htar]
    dsimp only
    rw [if_neg hcan]
  · intro w r hall b hb
    unfold World.update at hb
    set w0 : World := { w with frame_count := w.frame_count + 1 } with hw0
    set wt : World := World.tick_loop r w0.ants.length 0 w0 with hwt
    have hall0 : ∀ (k : Nat) (a : Ant), w0.ants[k]? = some a →
        w0.is_valid_position a.x a.y = true := by
      intro k a hk
      exact hall a (List.mem_iff_getElem?.mpr ⟨k, hk⟩)
    have htick : ∀ (k : Nat) (a : Ant), wt.ants[k]? = some a →
        w.is_valid_position a.x a.y = true := by
      rw [hwt]
      exact tick_loop_all_valid r w0.ants.length 0 w0 hall0
    have hsp : ((wt.spawn_food_step r).update_pheromones).ants = wt.ants := by
      rw [ants_update_pheromones, ants_spawn_food_step]
    rcases check_colony_growth_ants_shape ((wt.spawn_food_step r).update_pheromones) r with
      hsame | ⟨na, happ, _, hnav⟩
    · rw [hsame, hsp] at hb
      obtain ⟨k, hk⟩ := List.getElem?_of_mem hb
      exact htick k b hk
    · rw [happ, hsp] at hb
      rcases List.mem_append.mp hb with hmem | hmem
      · obtain ⟨k, hk⟩ := List.getElem?_of_mem hmem
        exact htick k b hk
      · rw [List.mem_singleton.mp hmem]
        rw [valid_update_pheromones, valid_spawn_food_step, hwt,
          tick_loop_valid_fn r w0.ants.length 0 w0 na.x na.y] at hnav
        exact hnav

/-- Witness for C10: the fresh ant of the one-ant world starts in bounds
at (1, 1) and is still in bounds after its update; and can_move_to at
(1, 1) indeed implies in-bounds. -/
theorem c10_position_stays_in_bounds_witness :
    ((world_one_ant.ant_update_at 0 rand0).ants[0]?).map
      (fun b => world_one_ant.is_valid_position b.x b.y) = some true ∧
    world_one_ant.is_valid_position 1 1 = true := by
  constructor
  · rcases hb : (world_one_ant.ant_update_at 0 rand0).ants[0]? with _ | b
    · exfalso
      have hn := List.getElem?_eq_none_iff.mp hb
      rw [(ant_update_at_spec world_one_ant 0 rand0).1] at hn
      have hone : world_one_ant.ants.length = 1 := rfl
      omega
    · exact congrArg some (c10_position_stays_in_bounds.1 world_one_ant 0 0 rand0
        (Ant.init 1 1 0) b rfl (by decide) hb)
  · exact c10_position_stays_in_bounds.2.1 world_one_ant 1 1 (by decide)

end Anthill
